import Mathlib

/-!
Verification development for the o-dns DNS server.

The definitions below are a shallow embedding of the Rust sources:
`o-dns-lib` (wire codec: `buf.rs`, `dns_header.rs`, `question.rs`,
`resource_record.rs`, `lib.rs`, `utils.rs`) and the `o-dns` crate
(`resolver/mod.rs`, `cache/mod.rs`, `cache/cached_query.rs`,
`cache/cached_record.rs`, `hosts.rs`, `util.rs`).

Machine integers are modelled as `Nat` with explicit `% 2^w` where the
source can overflow; byte buffers are `List Nat` with values below 256;
Rust `String`s are modelled by their UTF-8 byte sequences.  SHA-1 based
hashes and compiled regexes are opaque to all verified properties, so
they are taken as function parameters of the corresponding definitions.
Fallible code returns `Option`, and the one genuinely partial loop
(`ByteBuf::read_qname`, which can diverge on pointer cycles) is modelled
with an explicit fuel argument whose exhaustion is reported as a third
result `spin`, distinct from the error result of the source.
-/

namespace ODNSModel

/-- Three-way result of a decoding step: success with a value and the new
cursor position, a decoding error, or fuel exhaustion (`spin`), the latter
marking that the source loop would still be running. -/
inductive Res (α : Type) where
  | ok (val : α) (pos : Nat)
  | err
  | spin
deriving Repr, DecidableEq

/-- `QueryType` from `question.rs`. -/
inductive QueryType where
  | UNKNOWN (code : Nat)
  | A
  | NS
  | CNAME
  | AAAA
  | OPT
  | ANY
deriving Repr, DecidableEq

/-- `impl From<QueryType> for u16` from `question.rs`. -/
def queryTypeToU16 : QueryType → Nat
  | .A => 1
  | .NS => 2
  | .CNAME => 5
  | .AAAA => 28
  | .OPT => 41
  | .ANY => 255
  | .UNKNOWN qtype => qtype

/-- `impl From<u16> for QueryType` from `question.rs`. -/
def queryTypeFromU16 (value : Nat) : QueryType :=
  if value = 1 then .A
  else if value = 2 then .NS
  else if value = 5 then .CNAME
  else if value = 28 then .AAAA
  else if value = 41 then .OPT
  else if value = 255 then .ANY
  else .UNKNOWN value

/-- `QueryOpcode` from `dns_header.rs`. -/
inductive QueryOpcode where
  | QUERY
  | IQUERY
  | STATUS
  | UNKNOWN
deriving Repr, DecidableEq

/-- Discriminant used by `DnsHeader::get_flags` (`opcode as u8`). -/
def opcodeToU8 : QueryOpcode → Nat
  | .QUERY => 0
  | .IQUERY => 1
  | .STATUS => 2
  | .UNKNOWN => 3

/-- `impl From<u8> for QueryOpcode` from `dns_header.rs`. -/
def opcodeFromU8 (value : Nat) : QueryOpcode :=
  if value = 0 then .QUERY
  else if value = 1 then .IQUERY
  else if value = 2 then .STATUS
  else .UNKNOWN

/-- `ResponseCode` from `dns_header.rs`. -/
inductive ResponseCode where
  | Success
  | FormatError
  | ServerFailure
  | NameError
  | NotImplemented
  | Refused
  | Unknown
deriving Repr, DecidableEq

/-- Discriminant used by `DnsHeader::get_flags` (`response_code as u8`). -/
def responseCodeToU8 : ResponseCode → Nat
  | .Success => 0
  | .FormatError => 1
  | .ServerFailure => 2
  | .NameError => 3
  | .NotImplemented => 4
  | .Refused => 5
  | .Unknown => 6

/-- `impl From<u8> for ResponseCode` from `dns_header.rs`. -/
def responseCodeFromU8 (value : Nat) : ResponseCode :=
  if value = 0 then .Success
  else if value = 1 then .FormatError
  else if value = 2 then .ServerFailure
  else if value = 3 then .NameError
  else if value = 4 then .NotImplemented
  else if value = 5 then .Refused
  else .Unknown

/-- `DnsHeader` from `dns_header.rs`; the `z : [bool; 3]` array is split
into the three fields `z0`, `z1` (AD) and `z2` (CD). -/
structure DnsHeader where
  id : Nat
  is_response : Bool
  opcode : QueryOpcode
  is_authoritative : Bool
  truncation : Bool
  recursion_desired : Bool
  recursion_available : Bool
  z0 : Bool
  z1 : Bool
  z2 : Bool
  response_code : ResponseCode
  question_count : Nat
  answer_rr_count : Nat
  authority_rr_count : Nat
  additional_rr_count : Nat
deriving Repr, DecidableEq

/-- `DnsHeader::new` / `Default`. -/
def DnsHeader.new : DnsHeader :=
  { id := 0, is_response := false, opcode := .QUERY, is_authoritative := false,
    truncation := false, recursion_desired := false, recursion_available := false,
    z0 := false, z1 := false, z2 := false, response_code := .Success,
    question_count := 0, answer_rr_count := 0, authority_rr_count := 0,
    additional_rr_count := 0 }

/-- `ResourceData` from `resource_record.rs`.  IP addresses are stored as
their octet lists; qnames and rdata as byte lists; OPT options as an
association list standing for the source `HashMap` (keys unique). -/
inductive ResourceData where
  | UNKNOWN (qtype : Nat) (rdata : List Nat)
  | A (address : List Nat)
  | NS (ns_domain_name : List Nat)
  | CNAME (cname : List Nat)
  | AAAA (address : List Nat)
  | OPT (options : Option (List (Nat × List Nat)))
deriving Repr, DecidableEq

/-- `ResourceData::get_query_type`. -/
def ResourceData.get_query_type : ResourceData → QueryType
  | .UNKNOWN qtype _ => .UNKNOWN qtype
  | .A _ => .A
  | .NS _ => .NS
  | .CNAME _ => .CNAME
  | .AAAA _ => .AAAA
  | .OPT _ => .OPT

/-- `ResourceRecord` from `resource_record.rs` (`class` is a Lean keyword,
so the field is called `rclass`). -/
structure ResourceRecord where
  name : List Nat
  rclass : Nat
  ttl : Nat
  resource_data : ResourceData
deriving Repr, DecidableEq

/-- `ResourceRecord::new` (ttl defaults to 0, class to 1). -/
def ResourceRecord.new (name : List Nat) (resource_data : ResourceData)
    (ttl : Option Nat) (rclass : Option Nat) : ResourceRecord :=
  { name := name, ttl := ttl.getD 0, rclass := rclass.getD 1,
    resource_data := resource_data }

/-- `Question` from `question.rs`. -/
structure Question where
  qname : List Nat
  query_type : QueryType
  qclass : Nat
deriving Repr, DecidableEq

/-- `IN_CLASS` from `lib.rs`. -/
def IN_CLASS : Nat := 1

/-- `Question::new`. -/
def Question.new (qname : List Nat) (query_type : QueryType)
    (qclass : Option Nat) : Question :=
  { qname := qname, query_type := query_type, qclass := qclass.getD IN_CLASS }

/-- `DnsPacket` from `lib.rs` (with the `edns` feature enabled, as in the
o-dns binary). -/
structure DnsPacket where
  header : DnsHeader
  edns : Option Nat
  questions : List Question
  answers : List ResourceRecord
  authorities : List ResourceRecord
  additionals : List ResourceRecord
deriving Repr, DecidableEq

/-- `DnsPacket::new` / `Default`. -/
def DnsPacket.new : DnsPacket :=
  { header := DnsHeader.new, edns := none, questions := [], answers := [],
    authorities := [], additionals := [] }

/-- `EdnsData` from `resource_record.rs` (`NonZero<u8>` is `Option Nat`
with `none` for zero). -/
structure EdnsData where
  udp_payload_size : Nat
  extended_rcode : Option Nat
  dnssec_ok_bit : Bool
  version : Nat
deriving Repr, DecidableEq

/-- `ResourceRecord::get_edns_data`: unpacks the EDNS fields stored in the
`class`/`ttl` of an OPT pseudo-record. -/
def ResourceRecord.get_edns_data (rr : ResourceRecord) : Option EdnsData :=
  match rr.resource_data.get_query_type with
  | .OPT =>
    let b0 := rr.ttl / 16777216 % 256
    let b1 := rr.ttl / 65536 % 256
    let b2 := rr.ttl / 256 % 256
    some { udp_payload_size := rr.rclass,
           extended_rcode := if b0 = 0 then none else some b0,
           dnssec_ok_bit := b2 &&& 128 = 128,
           version := b1 }
  | _ => none

/-- The byte value of the ASCII dot that separates qname labels. -/
def dotByte : Nat := 46

/-- Model of Rust `str::split('.')` on the UTF-8 bytes of a qname: since
`'.'` is ASCII, splitting the character sequence at `'.'` is splitting the
byte sequence at byte 46. -/
def splitOnDot (l : List Nat) : List (List Nat) :=
  match l with
  | [] => [[]]
  | b :: rest =>
    match splitOnDot rest with
    | [] => [[]]
    | cur :: parts =>
      if b = dotByte then [] :: cur :: parts else (b :: cur) :: parts

/-- Joining labels with `'.'`, the inverse of `splitOnDot` and the model of
`labels.join(".")` in `ByteBuf::read_qname`. -/
def joinDots (parts : List (List Nat)) : List Nat :=
  match parts with
  | [] => []
  | [p] => p
  | p :: rest => p ++ dotByte :: joinDots rest

/-- Model of `qname.splitn(idx + 1, '.').last().unwrap()`: the suffix of
the qname that starts at label number `idx`. -/
def suffixFrom (q : List Nat) (idx : Nat) : List Nat :=
  joinDots ((splitOnDot q).drop idx)

/-- `find_wildcard_parts` from `hosts.rs`: all suffixes obtained by
dropping at least one leading label, skipping suffixes that would start at
an empty label. -/
def find_wildcard_parts (q : List Nat) : List (List Nat) :=
  ((splitOnDot q).enum.drop 1).filterMap
    (fun p => if p.2 = [] then none else some (suffixFrom q p.1))

/-- The `b"*."` hash prefix used for wildcard entries. -/
def dotStarBytes : List Nat := [42, 46]

/-- An abstract stand-in for `hash_to_u128` from `util.rs` (SHA-1
truncated to 16 bytes): any function from an optional prefix and the data
bytes to a `u128` value. -/
def HashFn : Type := Option (List Nat) → List Nat → Nat

/-- `Denylist` from `hosts.rs`.  `entries` models the `HashSet<u128>` and
regexes are opaque byte-string predicates paired with their ids. -/
structure Denylist where
  entries : List Nat
  regexes : List (Nat × (List Nat → Bool))

/-- `Denylist::find_wildcard_match`. -/
def Denylist.find_wildcard_match (hash : HashFn) (self : Denylist)
    (qname : List Nat) : Bool :=
  ((find_wildcard_parts qname).map (fun part => hash (some dotStarBytes) part)).any
    (fun h => self.entries.contains h)

/-- `Denylist::contains_entry`. -/
def Denylist.contains_entry (hash : HashFn) (self : Denylist)
    (qname : List Nat) : Bool :=
  if self.entries.contains (hash none qname) then true
  else if self.find_wildcard_match hash qname then true
  else self.regexes.any (fun pr => pr.2 qname)

/-- `Hosts` from `hosts.rs`: the `HashMap<u128, Vec<ResourceData>>` as an
association list with unique keys. -/
structure Hosts where
  map : List (Nat × List ResourceData)

/-- `Hosts::find_wildcard_match`. -/
def Hosts.find_wildcard_match (hash : HashFn) (self : Hosts)
    (qname : List Nat) : Option (List ResourceData) :=
  ((find_wildcard_parts qname).map (fun part => hash (some dotStarBytes) part)).findSome?
    (fun h => self.map.lookup h)

/-- `Hosts::get_entry`. -/
def Hosts.get_entry (hash : HashFn) (self : Hosts)
    (qname : List Nat) : Option (List ResourceData) :=
  match self.map.lookup (hash none qname) with
  | some records => some records
  | none => self.find_wildcard_match hash qname

/-- `is_dnssec_qtype` from `util.rs`. -/
def is_dnssec_qtype (qtype : Nat) : Bool :=
  qtype = 43 || qtype = 46 || qtype = 47 || qtype = 48 || qtype = 50

/-- `CachedQuery` from `cache/cached_query.rs`; the two `CacheFlags` bits
are the fields `flag_ad` and `flag_dnssec`, and the `Instant` is a `Nat`
timestamp in seconds. -/
structure CachedQuery where
  answers : Option (List Nat)
  authorities : Option (List Nat)
  additionals : Option (List Nat)
  flag_ad : Bool
  flag_dnssec : Bool
  added : Nat
  ttd : Nat
deriving Repr, DecidableEq

/-- `CachedRecord` from `cache/cached_record.rs`. -/
structure CachedRecord where
  qname : List Nat
  resource_data : ResourceData
  ttl : Nat
  rclass : Nat
  flag_ad : Bool
  added : Nat
deriving Repr, DecidableEq

/-- `CachedRecord::new`. -/
def CachedRecord.new (value : ResourceRecord) (authenticated_data : Bool)
    (now : Nat) : CachedRecord :=
  { qname := value.name, resource_data := value.resource_data,
    ttl := value.ttl, rclass := value.rclass, flag_ad := authenticated_data,
    added := now }

/-- `CachedRecord::as_rr`: the remaining TTL is the stored TTL minus the
elapsed seconds, saturating at zero. -/
def CachedRecord.as_rr (self : CachedRecord) (now : Nat) : ResourceRecord :=
  ResourceRecord.new self.qname self.resource_data
    (some (self.ttl - (now - self.added))) (some self.rclass)

/-- `Cache` from `cache/mod.rs`: both `LinkedHashMap`s as association
lists where the most recent insertion shadows older bindings. -/
structure Cache where
  query_cache : List (Nat × CachedQuery)
  rr_cache : List (Nat × CachedRecord)
deriving Repr, DecidableEq

/-- Result of walking one cached section: the success flag, the response
section contents and the section count after the walk. -/
structure SectionWalk where
  okay : Bool
  sec : List ResourceRecord
  count : Nat
deriving Repr, DecidableEq

/-- One section walk of `Cache::question_lookup` (`cache/mod.rs` lines
127-157): records looked up by hash are appended to the response section
and counted; a missing record or an AD-flag violation aborts with `false`,
keeping whatever was appended so far, exactly as the source `return false`
does. -/
def process_section (rr_cache : List (Nat × CachedRecord))
    (include_dnssec_rrs require_ad : Bool) (now : Nat) :
    List Nat → List ResourceRecord → Nat → SectionWalk
  | [], sec, count => ⟨true, sec, count⟩
  | rr_hash :: rest, sec, count =>
    match rr_cache.lookup rr_hash with
    | none => ⟨false, sec, count⟩
    | some cached_rr =>
      if !include_dnssec_rrs
          && is_dnssec_qtype (queryTypeToU16 cached_rr.resource_data.get_query_type) then
        process_section rr_cache include_dnssec_rrs require_ad now rest sec count
      else if require_ad && !cached_rr.flag_ad then
        ⟨false, sec, count⟩
      else
        process_section rr_cache include_dnssec_rrs require_ad now rest
          (sec ++ [cached_rr.as_rr now]) (count + 1)

/-- `Cache::question_lookup` from `cache/mod.rs`, parameterised by the
query-fingerprint hash function and the current time.  Returns the hit
flag together with the (possibly mutated) response packet. -/
def Cache.question_lookup (hashQ : Question → Nat) (now : Nat) (self : Cache)
    (question : Question) (response_packet : DnsPacket) (dnssec : Bool) :
    Bool × DnsPacket :=
  match self.query_cache.lookup (hashQ question) with
  | none => (false, response_packet)
  | some cached_query =>
    if cached_query.ttd ≤ now - cached_query.added then
      (false, response_packet)
    else if dnssec && !cached_query.flag_dnssec then
      (false, response_packet)
    else
      let require_ad := cached_query.flag_ad
      let pkt := { response_packet with
        header := { response_packet.header with z1 := require_ad } }
      let include_dnssec_rrs :=
        dnssec || is_dnssec_qtype (queryTypeToU16 question.query_type)
      let r1 := process_section self.rr_cache include_dnssec_rrs require_ad now
        (cached_query.answers.getD []) pkt.answers pkt.header.answer_rr_count
      let pkt := { pkt with
        answers := r1.sec,
        header := { pkt.header with answer_rr_count := r1.count } }
      if !r1.okay then (false, pkt) else
      let r2 := process_section self.rr_cache include_dnssec_rrs require_ad now
        (cached_query.authorities.getD []) pkt.authorities pkt.header.authority_rr_count
      let pkt := { pkt with
        authorities := r2.sec,
        header := { pkt.header with authority_rr_count := r2.count } }
      if !r2.okay then (false, pkt) else
      let r3 := process_section self.rr_cache include_dnssec_rrs require_ad now
        (cached_query.additionals.getD []) pkt.additionals pkt.header.additional_rr_count
      let pkt := { pkt with
        additionals := r3.sec,
        header := { pkt.header with additional_rr_count := r3.count } }
      if !r3.okay then (false, pkt) else (true, pkt)

/-- `DEFAULT_EDNS_BUF_CAPACITY` from the o-dns crate. -/
def DEFAULT_EDNS_BUF_CAPACITY : Nat := 1232

/-- `MAX_STANDARD_DNS_MSG_SIZE` from the o-dns crate. -/
def MAX_STANDARD_DNS_MSG_SIZE : Nat := 512

/-- `EDNS_DO_BIT` from the o-dns crate. -/
def EDNS_DO_BIT : Nat := 32768

/-- `get_edns_rr` from `util.rs`: an OPT pseudo-record whose class is the
buffer size and whose ttl carries the flags. -/
def get_edns_rr (buf_size : Nat) (options : Option (List (Nat × List Nat)))
    (flags : Option Nat) : ResourceRecord :=
  ResourceRecord.new [] (ResourceData.OPT options) flags (some buf_size)

/-- `get_response_dns_packet` from `util.rs`. -/
def get_response_dns_packet (request_packet : Option DnsPacket)
    (response_code : Option ResponseCode) : DnsPacket :=
  let packet := DnsPacket.new
  let packet := { packet with
    header := { packet.header with is_response := true, recursion_available := true } }
  let packet :=
    match request_packet with
    | none => packet
    | some request =>
      let packet := { packet with
        header := { packet.header with
          id := request.header.id,
          recursion_desired := request.header.recursion_desired,
          z2 := request.header.z2 } }
      match request.edns.bind (fun idx =>
          (request.additionals.get? idx).bind ResourceRecord.get_edns_data) with
      | none => packet
      | some edns_data =>
        let flags := if edns_data.dnssec_ok_bit then some EDNS_DO_BIT else none
        { packet with
          additionals := packet.additionals ++ [get_edns_rr DEFAULT_EDNS_BUF_CAPACITY none flags],
          header := { packet.header with
            additional_rr_count := packet.header.additional_rr_count + 1 },
          edns := some 0 }
  match response_code with
  | none => packet
  | some rcode => { packet with header := { packet.header with response_code := rcode } }

/-- `get_minimum_ttl_for_packet` from `util.rs`. -/
def get_minimum_ttl_for_packet (packet : DnsPacket) : Option Nat :=
  (((packet.answers ++ packet.authorities ++ packet.additionals).filter
    (fun rr => rr.resource_data.get_query_type ≠ QueryType.OPT)).map
    (fun rr => rr.ttl)).min?

/-- `get_caching_duration_for_packet` from `util.rs`. -/
def get_caching_duration_for_packet (packet : DnsPacket) : Nat :=
  match packet.header.response_code with
  | .Success => (get_minimum_ttl_for_packet packet).getD 300
  | .Refused => 60
  | .NameError => 60
  | .ServerFailure => 30
  | .NotImplemented => 300
  | .FormatError => 0
  | .Unknown => 0

/-- `CachedQuery::new` from `cache/cached_query.rs`. -/
def CachedQuery.new (response_packet : DnsPacket) (ttd : Nat) (now : Nat) :
    CachedQuery :=
  let flag_dnssec :=
    match response_packet.edns.bind (fun idx =>
        (response_packet.additionals.get? idx).bind ResourceRecord.get_edns_data) with
    | none => false
    | some edns_data => edns_data.dnssec_ok_bit
  { answers := none, authorities := none, additionals := none,
    flag_ad := response_packet.header.z1, flag_dnssec := flag_dnssec,
    added := now, ttd := ttd }

/-- One section of `Cache::cache_response`: every non-OPT record is turned
into a `CachedRecord`, its hash appended to the section list (which is
created on first use) and inserted into the RR cache. -/
def cache_section (hashR : CachedRecord → Nat) (ad : Bool) (now : Nat) :
    List ResourceRecord → Option (List Nat) → List (Nat × CachedRecord) →
    Option (List Nat) × List (Nat × CachedRecord)
  | [], cached_section, rr_cache => (cached_section, rr_cache)
  | rr :: rest, cached_section, rr_cache =>
    if rr.resource_data.get_query_type = QueryType.OPT then
      cache_section hashR ad now rest cached_section rr_cache
    else
      let cached_rr := CachedRecord.new rr ad now
      let h := hashR cached_rr
      cache_section hashR ad now rest (some (cached_section.getD [] ++ [h]))
        ((h, cached_rr) :: rr_cache)

/-- `Cache::cache_response` from `cache/mod.rs`, parameterised by the two
hash functions and the current time.  Returns `none` exactly where the
source returns an error (a response without a question). -/
def Cache.cache_response (hashQ : Question → Nat) (hashR : CachedRecord → Nat)
    (now : Nat) (self : Cache) (response : DnsPacket) : Option Cache :=
  let cache_for := get_caching_duration_for_packet response
  if cache_for < 15 then some self
  else
    let cq := CachedQuery.new response cache_for now
    let s1 := cache_section hashR response.header.z1 now response.answers cq.answers self.rr_cache
    let s2 := cache_section hashR response.header.z1 now response.authorities cq.authorities s1.2
    let s3 := cache_section hashR response.header.z1 now response.additionals cq.additionals s2.2
    let cq := { cq with answers := s1.1, authorities := s2.1, additionals := s3.1 }
    match response.questions.head? with
    | none => none
    | some question =>
      some { query_cache := (hashQ question, cq) :: self.query_cache, rr_cache := s3.2 }

/-- `ResponseSource` from `resolver/mod.rs`. -/
inductive ResponseSource where
  | Denylist
  | Allowlist
  | Cache
  | NoRecurse
  | Upstream
deriving Repr, DecidableEq

/-- `Resolver::denylist_lookup` from `resolver/mod.rs`: on a denylist hit
the AA bit is set and a synthetic `0.0.0.0` / `::` answer with TTL 180 is
pushed for A/ANY and AAAA queries. -/
def denylist_lookup (hash : HashFn) (denylist : Denylist) (question : Question)
    (response_packet : DnsPacket) : Bool × DnsPacket :=
  let is_in_denylist := denylist.contains_entry hash question.qname
  if is_in_denylist then
    let packet := { response_packet with
      header := { response_packet.header with is_authoritative := true } }
    let rdata : Option ResourceData :=
      match question.query_type with
      | .A => some (ResourceData.A [0, 0, 0, 0])
      | .ANY => some (ResourceData.A [0, 0, 0, 0])
      | .AAAA => some (ResourceData.AAAA [0, 0, 0, 0, 0, 0, 0, 0, 0, 0, 0, 0, 0, 0, 0, 0])
      | _ => none
    match rdata with
    | none => (true, packet)
    | some rdata =>
      let rr := ResourceRecord.new question.qname rdata (some 180) none
      (true, { packet with
        answers := packet.answers ++ [rr],
        header := { packet.header with
          answer_rr_count := packet.header.answer_rr_count + 1 } })
  else (false, response_packet)

/-- The record filter of `Resolver::allowlist_lookup`: a stored record
matches when the question asks for ANY or for the record's own type. -/
def qtype_matches (question : Question) (rdata : ResourceData) : Bool :=
  match question.query_type with
  | .ANY => true
  | qtype => rdata.get_query_type = qtype

/-- The record appended by the allowlist branch: the stored RDATA under
the question's qname with TTL 180 and the default class. -/
def allow_rr (question : Question) (rdata : ResourceData) : ResourceRecord :=
  ResourceRecord.new question.qname rdata (some 180) none

/-- `Resolver::allowlist_lookup` from `resolver/mod.rs`: if the hosts list
has records for the qname, the AA bit is set and every record whose type
matches the question (all of them for ANY) is appended with TTL 180; the
returned flag is `!response_packet.answers.is_empty()`. -/
def allowlist_lookup (hash : HashFn) (hosts : Hosts) (question : Question)
    (response_packet : DnsPacket) : Bool × DnsPacket :=
  let packet :=
    match hosts.get_entry hash question.qname with
    | none => response_packet
    | some records =>
      let packet := { response_packet with
        header := { response_packet.header with is_authoritative := true } }
      let matching := records.filter (qtype_matches question)
      matching.foldl (fun packet rdata =>
        { packet with
          answers := packet.answers ++ [allow_rr question rdata],
          header := { packet.header with
            answer_rr_count := packet.header.answer_rr_count + 1 } }) packet
  (!packet.answers.isEmpty, packet)

/-- Outcome of the `'resolve` block of `Resolver::resolve_query`, together
with the question copy-back that follows it: the response packet, the
`cache_response` flag, and the log source (`none` for the FormatError
paths, which carry no source). -/
structure ResolveOutcome where
  response : DnsPacket
  cache_response : Bool
  source : Option ResponseSource
deriving Repr, DecidableEq

/-- The pure per-query state machine of `Resolver::resolve_query`
(`resolver/mod.rs` lines 41-131): validation, DNSSEC-flag derivation,
denylist lookup, allowlist lookup, the no-recursion shortcut, cache
lookup, and the upstream branch, followed by copying the questions of the
request into the response when they are still empty.  The upstream call is
abstracted by its result: `some packet` for a successful upstream
response, `none` for an upstream error (which sets ServerFailure).
The result is `none` exactly where the source indexes `questions[0]` out
of bounds and panics. -/
def resolve_core (hash : HashFn) (hashQ : Question → Nat) (denylist : Denylist)
    (hosts : Hosts) (cache : Cache) (now : Nat)
    (upstream : Option DnsPacket) (parsed_packet : Option DnsPacket) :
    Option ResolveOutcome :=
  let response_packet := get_response_dns_packet parsed_packet none
  match parsed_packet with
  | none =>
    some { response := { response_packet with
             header := { response_packet.header with response_code := .FormatError } },
           cache_response := false, source := none }
  | some query_packet =>
    if query_packet.header.question_count > 1 ∨ query_packet.questions.length > 1 then
      some { response := { response_packet with
               header := { response_packet.header with response_code := .FormatError } },
             cache_response := false, source := none }
    else
      match query_packet.questions.get? 0 with
      | none => none
      | some question =>
        let dnssec :=
          match query_packet.edns.bind (fun idx =>
              (query_packet.additionals.get? idx).bind ResourceRecord.get_edns_data) with
          | none => false
          | some edns_data => edns_data.dnssec_ok_bit
        let deny := denylist_lookup hash denylist question response_packet
        if deny.1 then
          some { response := deny.2, cache_response := false, source := some .Denylist }
        else
        let allow := allowlist_lookup hash hosts question deny.2
        if allow.1 then
          some { response := allow.2, cache_response := false, source := some .Allowlist }
        else
        if !query_packet.header.recursion_desired then
          some { response := allow.2, cache_response := false,
                 source := some .NoRecurse }
        else
        let hit := cache.question_lookup hashQ now question allow.2 dnssec
        if hit.1 then
          some { response := hit.2, cache_response := false, source := some .Cache }
        else
          let response_packet :=
            match upstream with
            | none =>
              { hit.2 with header := { hit.2.header with response_code := .ServerFailure } }
            | some upstream_response =>
              let base := { hit.2 with
                questions := upstream_response.questions,
                answers := upstream_response.answers,
                authorities := upstream_response.authorities,
                header := { hit.2.header with
                  question_count := upstream_response.header.question_count,
                  answer_rr_count := upstream_response.header.answer_rr_count,
                  authority_rr_count := upstream_response.header.authority_rr_count } }
              let base := upstream_response.additionals.foldl (fun packet rr =>
                if rr.resource_data.get_query_type ≠ QueryType.OPT then
                  { packet with
                    additionals := packet.additionals ++ [rr],
                    header := { packet.header with
                      additional_rr_count := packet.header.additional_rr_count + 1 } }
                else packet) base
              if upstream_response.header.z1 then
                { base with header := { base.header with z1 := true } }
              else base
          some { response := response_packet, cache_response := true,
                 source := some .Upstream }

/-- The question copy-back following the `'resolve` block of
`Resolver::resolve_query` (lines 125-131), applied to the outcome of
`resolve_core`. -/
def resolve_query (hash : HashFn) (hashQ : Question → Nat) (denylist : Denylist)
    (hosts : Hosts) (cache : Cache) (now : Nat)
    (upstream : Option DnsPacket) (parsed_packet : Option DnsPacket) :
    Option ResolveOutcome :=
  match resolve_core hash hashQ denylist hosts cache now upstream parsed_packet with
  | none => none
  | some outcome =>
    if outcome.response.questions.isEmpty then
      match parsed_packet with
      | some packet =>
        some { outcome with response := { outcome.response with
          questions := packet.questions,
          header := { outcome.response.header with
            question_count := packet.header.question_count } } }
      | none => some outcome
    else some outcome

/-- The cache-write step of `Resolver::resolve_query` (lines 143-148):
`Cache::cache_response` runs only when the `cache_response` flag from the
`'resolve` block is set. -/
def resolve_cache_write (hashQ : Question → Nat) (hashR : CachedRecord → Nat)
    (now : Nat) (cache : Cache) (response : DnsPacket) (flag : Bool) :
    Option Cache :=
  if flag then cache.cache_response hashQ hashR now response else some cache

/-! ### Concrete objects used by witnesses and counterexamples -/

/-- A trivial stand-in hash function for concrete evaluations. -/
def hashZero : HashFn := fun _ _ => 0

/-- A trivial query-fingerprint hash for concrete evaluations. -/
def hashQZero : Question → Nat := fun _ => 0

/-- A trivial record-fingerprint hash for concrete evaluations. -/
def hashRZero : CachedRecord → Nat := fun _ => 0

/-- The empty denylist. -/
def emptyDenylist : Denylist := ⟨[], []⟩

/-- The empty hosts list. -/
def emptyHosts : Hosts := ⟨[]⟩

/-- The empty cache. -/
def emptyCache : Cache := ⟨[], []⟩

/-- The FormatError outcome produced for an unparseable query. -/
def c7OutcomeW : ResolveOutcome :=
  { response :=
      { header := { DnsHeader.new with
          is_response := true
          recursion_available := true
          response_code := .FormatError }
        edns := none
        questions := []
        answers := []
        authorities := []
        additionals := [] }
    cache_response := false
    source := none }

/-- Qname used by the C5 scenario (the single byte `a`). -/
def c5Qname : List Nat := [97]

/-- Question used by the C5 scenario: an A query for `c5Qname`. -/
def c5Question : Question := ⟨c5Qname, .A, 1⟩

/-- Hosts list holding only a CNAME record under the hash 0 (which is the
hash of every name under `hashZero`). -/
def c5Hosts : Hosts := ⟨[(0, [ResourceData.CNAME [98, 46, 99]])]⟩

/-- Hosts list holding an A record under the hash 0, for the C5 witness. -/
def c5HostsW : Hosts := ⟨[(0, [ResourceData.A [1, 2, 3, 4]])]⟩

/-- A parsed query packet for `c5Question` with RD unset. -/
def c5Query : DnsPacket :=
  { header := { DnsHeader.new with question_count := 1 }, edns := none,
    questions := [c5Question], answers := [], authorities := [],
    additionals := [] }

/-- Expected outcome of the C5 scenario: the hosts list has an entry but
no record matches an A query, so resolution falls through to the
no-recursion shortcut (with the AA bit already set by the hosts branch). -/
def c5OutcomeW : ResolveOutcome :=
  { response :=
      { header := { DnsHeader.new with
          is_response := true
          recursion_available := true
          is_authoritative := true
          question_count := 1 }
        edns := none
        questions := [c5Question]
        answers := []
        authorities := []
        additionals := [] }
    cache_response := false
    source := some .NoRecurse }

/-- A cached query whose answer list names two record hashes. -/
def c10CachedQuery : CachedQuery :=
  { answers := some [1, 2], authorities := none, additionals := none,
    flag_ad := false, flag_dnssec := false, added := 0, ttd := 100 }

/-- A cached A record stored under hash 1. -/
def c10CachedRecord : CachedRecord :=
  { qname := [97], resource_data := ResourceData.A [1, 2, 3, 4], ttl := 60,
    rclass := 1, flag_ad := false, added := 0 }

/-- Cache for the C10 scenario: the query entry references hashes 1 and 2
but only hash 1 is present in the RR cache. -/
def c10Cache : Cache :=
  { query_cache := [(5, c10CachedQuery)], rr_cache := [(1, c10CachedRecord)] }

/-- Query-fingerprint hash selecting the C10 cache entry. -/
def c10HashQ : Question → Nat := fun _ => 5

/-- Response packet given to the C10 lookup, with the AD flag initially
set so that the lookup's write to it is observable. -/
def c10Packet : DnsPacket :=
  { header := { DnsHeader.new with is_response := true, z1 := true },
    edns := none, questions := [], answers := [], authorities := [],
    additionals := [] }

/-- A cached query lacking the DNSSEC flag, for the C8 witness. -/
def c8CachedQuery : CachedQuery :=
  { answers := some [], authorities := none, additionals := none,
    flag_ad := false, flag_dnssec := false, added := 0, ttd := 100 }

/-- Cache for the C8 witness: one cached query under hash 0. -/
def c8Cache : Cache := { query_cache := [(0, c8CachedQuery)], rr_cache := [] }

/-! ### Wire codec: byte-level helpers -/

/-- Big-endian bytes of a `u16` value (`u16::to_be_bytes`). -/
def u16Bytes (n : Nat) : List Nat := [n / 256 % 256, n % 256]

/-- Big-endian bytes of a `u32` value (`u32::to_be_bytes`). -/
def u32Bytes (n : Nat) : List Nat :=
  [n / 16777216 % 256, n / 65536 % 256, n / 256 % 256, n % 256]

/-- `ByteBuf::read_u16` at an explicit position: two big-endian bytes, or
`none` when fewer than two bytes remain. -/
def readU16 (buf : List Nat) (pos : Nat) : Option Nat :=
  if pos + 2 ≤ buf.length then some (buf.getD pos 0 * 256 + buf.getD (pos + 1) 0)
  else none

/-- `ByteBuf::read_bytes` at an explicit position. -/
def readBytesAt (buf : List Nat) (pos n : Nat) : Option (List Nat) :=
  if pos + n ≤ buf.length then some ((buf.drop pos).take n) else none

/-- A UTF-8 continuation byte (`10xxxxxx`). -/
def isCont (b : Nat) : Bool := 128 ≤ b && b ≤ 191

/-- RFC 3629 UTF-8 validity of a byte sequence, the model of
`str::from_utf8(..).is_ok()`: no overlong encodings, no surrogates, no
code points above U+10FFFF. -/
def utf8Valid : List Nat → Bool
  | [] => true
  | b :: rest =>
    if b ≤ 127 then utf8Valid rest
    else if 194 ≤ b && b ≤ 223 then
      match rest with
      | c1 :: rest2 => isCont c1 && utf8Valid rest2
      | [] => false
    else if b = 224 then
      match rest with
      | c1 :: c2 :: rest2 => (160 ≤ c1 && c1 ≤ 191) && isCont c2 && utf8Valid rest2
      | _ => false
    else if (225 ≤ b && b ≤ 236) || (238 ≤ b && b ≤ 239) then
      match rest with
      | c1 :: c2 :: rest2 => isCont c1 && isCont c2 && utf8Valid rest2
      | _ => false
    else if b = 237 then
      match rest with
      | c1 :: c2 :: rest2 => (128 ≤ c1 && c1 ≤ 159) && isCont c2 && utf8Valid rest2
      | _ => false
    else if b = 240 then
      match rest with
      | c1 :: c2 :: c3 :: rest2 =>
        (144 ≤ c1 && c1 ≤ 191) && isCont c2 && isCont c3 && utf8Valid rest2
      | _ => false
    else if 241 ≤ b && b ≤ 243 then
      match rest with
      | c1 :: c2 :: c3 :: rest2 => isCont c1 && isCont c2 && isCont c3 && utf8Valid rest2
      | _ => false
    else if b = 244 then
      match rest with
      | c1 :: c2 :: c3 :: rest2 =>
        (128 ≤ c1 && c1 ≤ 143) && isCont c2 && isCont c3 && utf8Valid rest2
      | _ => false
    else false

/-! ### Wire codec: QNAME decoding (`ByteBuf::read_qname`) -/

/-- The loop of `ByteBuf::read_qname` (`buf.rs` lines 191-250).  `pos` is
the local read position, `spos` the buffer cursor `self.pos`, `jumped`
whether a compression pointer was already followed, and `labels` the
labels read so far.  The source loop has no termination guard, so it is
modelled with fuel; `spin` reports fuel exhaustion, i.e. the source would
still be looping. -/
def readQnameGo (buf : List Nat) : Nat → Nat → Nat → Bool → List (List Nat) →
    Res (List (List Nat))
  | 0, _, _, _, _ => .spin
  | fuel + 1, pos, spos, jumped, labels =>
    if pos + 1 ≤ buf.length then
      let label_length := buf.getD pos 0
      if label_length &&& 192 = 192 then
        if pos + 2 ≤ buf.length then
          let ptr_second_byte := buf.getD (pos + 1) 0
          let offset := ((label_length ^^^ 192) <<< 8) ||| ptr_second_byte
          readQnameGo buf fuel offset (if jumped then spos else spos + 2) true labels
        else .err
      else
        let pos2 := pos + 1
        if label_length ≠ 0 then
          if pos2 + label_length ≤ buf.length then
            let label := (buf.drop pos2).take label_length
            if utf8Valid label then
              readQnameGo buf fuel (pos2 + label_length)
                (if jumped then spos else pos2 + label_length) jumped (labels ++ [label])
            else .err
          else .err
        else .ok labels (if jumped then spos else pos2)
    else .err

/-- `ByteBuf::read_qname`: runs the loop from the cursor and joins the
collected labels with dots (an empty label list yields the empty name). -/
def read_qname (buf : List Nat) (fuel : Nat) (pos : Nat) : Res (List Nat) :=
  match readQnameGo buf fuel pos pos false [] with
  | .ok labels spos => .ok (joinDots labels) spos
  | .err => .err
  | .spin => .spin

/-! ### Wire codec: QNAME encoding (`ByteBuf::write_qname`) -/

/-- The label cache of the encoder (`HashMap<&str, usize>` mapping a
remaining-qname suffix to its absolute buffer offset), as an association
list where the most recent insertion shadows older bindings. -/
abbrev LabelCache : Type := List (List Nat × Nat)

/-- The label loop of `ByteBuf::write_qname` (`buf.rs` lines 261-289):
walks the labels of `q` with their index, errors on a label longer than
63 bytes, skips empty labels, and on the first label whose remaining
suffix is cached emits a two-byte jump pointer and stops.  Returns the
emitted bytes, the running `total_qname_length`, and the `used_cache`
flag; the terminating zero byte and the cache insertion are handled by
the wrapper. -/
def encQnameGo (cache : LabelCache) (q : List Nat) :
    List (List Nat) → Nat → Option (List Nat × Nat × Bool)
  | [], _ => some ([], 0, false)
  | label :: rest, idx =>
    if label.length > 63 then none
    else if label.isEmpty then encQnameGo cache q rest (idx + 1)
    else
      match List.lookup (suffixFrom q idx) cache with
      | some offset => some (u16Bytes (49152 ||| offset % 65536), 2, true)
      | none =>
        match encQnameGo cache q rest (idx + 1) with
        | none => none
        | some (bytes, total, used_cache) =>
          some ((label.length :: label) ++ bytes, 1 + label.length + total, used_cache)

/-- `ByteBuf::write_qname` as a pure function of the write position `pos`
(the buffer length when the qname starts): returns the emitted bytes, the
updated label cache and the returned `total_qname_length`.  The full
qname is inserted into the cache when anything was written, and the zero
terminator is emitted only when no jump pointer was used. -/
def write_qname (pos : Nat) (cache : LabelCache) (q : List Nat) :
    Option (List Nat × LabelCache × Nat) :=
  match encQnameGo cache q (splitOnDot q) 0 with
  | none => none
  | some (bytes, total, used_cache) =>
    let cache2 := if total > 0 then (q, pos) :: cache else cache
    if used_cache then some (bytes, cache2, total)
    else some (bytes ++ [0], cache2, total + 1)

/-- The loop of `get_max_encoded_qname_size` from `utils.rs`: on the
first label whose remaining suffix is cached the size so far plus 2 is
returned; otherwise each nonempty label costs `1 + len` and the final
null byte costs 1. -/
def qnameMaxGo (cache : Option LabelCache) (q : List Nat) :
    List (List Nat) → Nat → Nat
  | [], _ => 1
  | label :: rest, idx =>
    if label.isEmpty then qnameMaxGo cache q rest (idx + 1)
    else
      match cache.bind (fun c => List.lookup (suffixFrom q idx) c) with
      | some _ => 2
      | none => 1 + label.length + qnameMaxGo cache q rest (idx + 1)

/-- `get_max_encoded_qname_size` from `utils.rs`. -/
def get_max_encoded_qname_size (q : List Nat) (cache : Option LabelCache) : Nat :=
  qnameMaxGo cache q (splitOnDot q) 0

/-! ### Wire codec: DNS header -/

/-- `bool as u8`. -/
def bitVal (b : Bool) : Nat := if b then 1 else 0

/-- `DnsHeader::get_flags` from `dns_header.rs`: the RFC 1035 flag word. -/
def DnsHeader.get_flags (h : DnsHeader) : Nat :=
  let first_byte := bitVal h.is_response <<< 7 ||| opcodeToU8 h.opcode <<< 3 |||
    bitVal h.is_authoritative <<< 2 ||| bitVal h.truncation <<< 1 |||
    bitVal h.recursion_desired
  let second_byte := bitVal h.recursion_available <<< 7 ||| bitVal h.z0 <<< 6 |||
    bitVal h.z1 <<< 5 ||| bitVal h.z2 <<< 4 ||| responseCodeToU8 h.response_code
  first_byte <<< 8 ||| second_byte

/-- `DnsHeader::encode_to_buf`: id, flags and the four counts, big-endian. -/
def headerBytes (h : DnsHeader) : List Nat :=
  u16Bytes h.id ++ u16Bytes h.get_flags ++ u16Bytes h.question_count ++
    u16Bytes h.answer_rr_count ++ u16Bytes h.authority_rr_count ++
    u16Bytes h.additional_rr_count

/-- `DnsHeader::from_buf`: reads id, the flag word (decomposed per the
RFC 1035 bit layout) and the four section counts. -/
def header_from_buf (buf : List Nat) (pos : Nat) : Option (DnsHeader × Nat) :=
  match readU16 buf pos with
  | none => none
  | some id =>
    match readU16 buf (pos + 2) with
    | none => none
    | some flags =>
      match readU16 buf (pos + 4), readU16 buf (pos + 6),
          readU16 buf (pos + 8), readU16 buf (pos + 10) with
      | some question_count, some answer_rr_count,
          some authority_rr_count, some additional_rr_count =>
        some ({ id := id
                is_response := (flags &&& 32768) >>> 15 = 1
                opcode := opcodeFromU8 ((flags &&& 30720) >>> 11)
                is_authoritative := (flags &&& 1024) >>> 10 = 1
                truncation := (flags &&& 512) >>> 9 = 1
                recursion_desired := (flags &&& 256) >>> 8 = 1
                recursion_available := (flags &&& 128) >>> 7 = 1
                z0 := (flags &&& 64) >>> 6 = 1
                z1 := (flags &&& 32) >>> 5 = 1
                z2 := (flags &&& 16) >>> 4 = 1
                response_code := responseCodeFromU8 (flags &&& 15)
                question_count := question_count
                answer_rr_count := answer_rr_count
                authority_rr_count := authority_rr_count
                additional_rr_count := additional_rr_count }, pos + 12)
      | _, _, _, _ => none

/-! ### Wire codec: questions -/

/-- `max_size.is_some_and(|max_size| encoded_size > max_size)`. -/
def size_exceeds (max_size : Option Nat) (encoded_size : Nat) : Bool :=
  match max_size with
  | some m => encoded_size > m
  | none => false

/-- `Question::get_encoded_size` from `question.rs`. -/
def Question.get_encoded_size (question : Question) (cache : Option LabelCache) : Nat :=
  get_max_encoded_qname_size question.qname cache + 2 + 2

/-- `Question::encode_to_buf_with_cache` from `question.rs` as a pure
function of the write position: if the estimated size exceeds the budget
nothing is written and 0 is returned (the skip marker); otherwise the
qname, QTYPE and QCLASS are written and the estimate is returned. -/
def question_encode (pos : Nat) (cache : LabelCache) (question : Question)
    (max_size : Option Nat) : Option (List Nat × LabelCache × Nat) :=
  let encoded_size := question.get_encoded_size (some cache)
  if size_exceeds max_size encoded_size then
    some ([], cache, 0)
  else
    match write_qname pos cache question.qname with
    | none => none
    | some (qb, cache2, _) =>
      some (qb ++ u16Bytes (queryTypeToU16 question.query_type) ++
        u16Bytes question.qclass, cache2, encoded_size)

/-- `Question::from_buf`. -/
def question_from_buf (buf : List Nat) (fuel : Nat) (pos : Nat) : Res Question :=
  match read_qname buf fuel pos with
  | .ok qname pos2 =>
    match readU16 buf pos2, readU16 buf (pos2 + 2) with
    | some qtype_raw, some qclass =>
      .ok { qname := qname, query_type := queryTypeFromU16 qtype_raw,
            qclass := qclass } (pos2 + 4)
    | _, _ => .err
  | .err => .err
  | .spin => .spin

/-! ### Wire codec: resource records -/

/-- `ResourceData::get_encoded_size`.  Modelled from the spec for the
label-cache parameter: the source snapshot holds the pre-`max_size`
revision of `resource_record.rs` (no cache argument), while `lib.rs`
calls the revised version; spec section 4.1 says the per-record size is
computed "using the same label-cache view". -/
def ResourceData.get_encoded_size (rd : ResourceData) (cache : Option LabelCache) : Nat :=
  2 + match rd with
  | .UNKNOWN _ rdata => rdata.length
  | .A _ => 4
  | .NS n => get_max_encoded_qname_size n cache
  | .CNAME n => get_max_encoded_qname_size n cache
  | .AAAA _ => 16
  | .OPT options =>
    (options.getD []).foldl (fun acc o => acc + (2 + 2 + o.2.length)) 0

/-- `ResourceData::encode_to_buf_with_cache` as a pure function: RDLENGTH
followed by the RDATA bytes.  For NS/CNAME the stub-then-patch RDLENGTH of
the source is expressed by computing the qname bytes (written at offset
`pos + 2`) first and emitting their length in front, which produces the
same buffer contents. -/
def rdata_encode (pos : Nat) (cache : LabelCache) (rd : ResourceData) :
    Option (List Nat × LabelCache) :=
  match rd with
  | .UNKNOWN _ rdata => some (u16Bytes (rdata.length % 65536) ++ rdata, cache)
  | .A address => some (u16Bytes 4 ++ address, cache)
  | .AAAA address => some (u16Bytes 16 ++ address, cache)
  | .NS n =>
    match write_qname (pos + 2) cache n with
    | none => none
    | some (qb, cache2, qname_length) =>
      some (u16Bytes (qname_length % 65536) ++ qb, cache2)
  | .CNAME n =>
    match write_qname (pos + 2) cache n with
    | none => none
    | some (qb, cache2, qname_length) =>
      some (u16Bytes (qname_length % 65536) ++ qb, cache2)
  | .OPT options =>
    let opts := options.getD []
    let body := opts.foldr
      (fun o acc => u16Bytes o.1 ++ u16Bytes (o.2.length % 65536) ++ o.2 ++ acc) []
    let rd_length := opts.foldl (fun acc o => acc + (4 + o.2.length)) 0
    some (u16Bytes (rd_length % 65536) ++ body, cache)

/-- `ResourceRecord::get_encoded_size`: name, TYPE, CLASS, TTL and RDATA.
Modelled from the spec for the cache argument and the TYPE bytes: the
pre-revision source omits the 2 TYPE bytes, while the spec requires that
"the size estimate is never smaller than what actually gets written". -/
def ResourceRecord.get_encoded_size (rr : ResourceRecord) (cache : Option LabelCache) : Nat :=
  get_max_encoded_qname_size rr.name cache + 2 + 2 + 4 +
    rr.resource_data.get_encoded_size cache

/-- `ResourceRecord::encode_to_buf_with_cache` with the `max_size`
skip-if-too-big behaviour.  Modelled from the spec (section 4.1 rule 4)
in the same shape as `Question::encode_to_buf_with_cache`: the source
snapshot holds the pre-`max_size` revision of this function while
`lib.rs` calls the revised one. -/
def rr_encode (pos : Nat) (cache : LabelCache) (rr : ResourceRecord)
    (max_size : Option Nat) : Option (List Nat × LabelCache × Nat) :=
  let encoded_size := rr.get_encoded_size (some cache)
  if size_exceeds max_size encoded_size then
    some ([], cache, 0)
  else
    match write_qname pos cache rr.name with
    | none => none
    | some (qb, cache2, _) =>
      let head := qb ++ u16Bytes (queryTypeToU16 rr.resource_data.get_query_type) ++
        u16Bytes rr.rclass ++ u32Bytes rr.ttl
      match rdata_encode (pos + head.length) cache2 rr.resource_data with
      | none => none
      | some (rdb, cache3) => some (head ++ rdb, cache3, encoded_size)

/-- `HashMap::insert` on the decoded OPT options: replaces the value of
an existing code, otherwise appends. -/
def insertOption : List (Nat × List Nat) → Nat → List Nat → List (Nat × List Nat)
  | [], code, data => [(code, data)]
  | (c, d) :: rest, code, data =>
    if c = code then (code, data) :: rest
    else (c, d) :: insertOption rest code data

/-- The OPT option-reading loop of `ResourceData::from_buf_with_type`:
reads `(code, length, data)` triples until the remaining RDLENGTH reaches
zero.  The `u16` subtraction wraps as in a release build; the loop always
terminates because every iteration consumes at least four buffer bytes. -/
def optLoop (buf : List Nat) (remaining pos : Nat)
    (options : Option (List (Nat × List Nat))) :
    Option (Option (List (Nat × List Nat)) × Nat) :=
  if remaining = 0 then some (options, pos)
  else
    if h2 : pos + 2 ≤ buf.length then
      let code := buf.getD pos 0 * 256 + buf.getD (pos + 1) 0
      if h4 : pos + 4 ≤ buf.length then
        let olen := buf.getD (pos + 2) 0 * 256 + buf.getD (pos + 3) 0
        if hd : pos + 4 + olen ≤ buf.length then
          let odata := (buf.drop (pos + 4)).take olen
          optLoop buf ((remaining + 65536 - (4 + olen) % 65536) % 65536)
            (pos + 4 + olen) (some (insertOption (options.getD []) code odata))
        else none
      else none
    else none
termination_by buf.length - pos
decreasing_by omega

/-- `ResourceData::from_buf_with_type`. -/
def rdata_from_buf (buf : List Nat) (fuel : Nat) (pos : Nat)
    (query_type : QueryType) : Res ResourceData :=
  match readU16 buf pos with
  | none => .err
  | some rd_length =>
    let pos := pos + 2
    match query_type with
    | .UNKNOWN qtype =>
      match readBytesAt buf pos rd_length with
      | some data => .ok (.UNKNOWN qtype data) (pos + rd_length)
      | none => .err
    | .A =>
      if rd_length ≠ 4 then .err
      else
        match readBytesAt buf pos 4 with
        | some address => .ok (.A address) (pos + 4)
        | none => .err
    | .AAAA =>
      if rd_length ≠ 16 then .err
      else
        match readBytesAt buf pos 16 with
        | some address => .ok (.AAAA address) (pos + 16)
        | none => .err
    | .NS =>
      match read_qname buf fuel pos with
      | .ok n pos2 => .ok (.NS n) pos2
      | .err => .err
      | .spin => .spin
    | .CNAME =>
      match read_qname buf fuel pos with
      | .ok n pos2 => .ok (.CNAME n) pos2
      | .err => .err
      | .spin => .spin
    | .OPT =>
      match optLoop buf rd_length pos none with
      | some (options, pos2) => .ok (.OPT options) pos2
      | none => .err
    | .ANY => .err

/-- `ResourceRecord::from_buf`. -/
def rr_from_buf (buf : List Nat) (fuel : Nat) (pos : Nat) : Res ResourceRecord :=
  match read_qname buf fuel pos with
  | .ok name pos2 =>
    match readU16 buf pos2, readU16 buf (pos2 + 2),
        readU16 buf (pos2 + 4), readU16 buf (pos2 + 6) with
    | some qtype_raw, some rclass, some ttl_msb, some ttl_lsb =>
      match rdata_from_buf buf fuel (pos2 + 8) (queryTypeFromU16 qtype_raw) with
      | .ok resource_data pos3 =>
        .ok { name := name, rclass := rclass,
              ttl := ttl_msb <<< 16 ||| ttl_lsb,
              resource_data := resource_data } pos3
      | .err => .err
      | .spin => .spin
    | _, _, _, _ => .err
  | .err => .err
  | .spin => .spin

/-! ### Wire codec: packets -/

/-- The question-section loop of `DnsPacket::encode_to_buf_with_cache`:
threads the write position, the label cache, the running
`dns_packet_encoded_size` and the number of skipped questions. -/
def questions_encode (max_size : Option Nat) :
    List Question → Nat → LabelCache → Nat → Nat →
    Option (List Nat × LabelCache × Nat × Nat)
  | [], _, cache, size, skipped => some ([], cache, size, skipped)
  | question :: rest, pos, cache, size, skipped =>
    match question_encode pos cache question (max_size.map (fun m => m - size)) with
    | none => none
    | some (qb, cache2, encoded_size) =>
      let size2 := if encoded_size = 0 then size else size + encoded_size
      let skipped2 := if encoded_size = 0 then skipped + 1 else skipped
      match questions_encode max_size rest (pos + qb.length) cache2 size2 skipped2 with
      | none => none
      | some (bs, cache3, size3, skipped3) => some (qb ++ bs, cache3, size3, skipped3)

/-- The answer/authority-section loop of
`DnsPacket::encode_to_buf_with_cache`. -/
def rrs_encode (max_size : Option Nat) :
    List ResourceRecord → Nat → LabelCache → Nat → Nat →
    Option (List Nat × LabelCache × Nat × Nat)
  | [], _, cache, size, skipped => some ([], cache, size, skipped)
  | rr :: rest, pos, cache, size, skipped =>
    match rr_encode pos cache rr (max_size.map (fun m => m - size)) with
    | none => none
    | some (rb, cache2, encoded_size) =>
      let size2 := if encoded_size = 0 then size else size + encoded_size
      let skipped2 := if encoded_size = 0 then skipped + 1 else skipped
      match rrs_encode max_size rest (pos + rb.length) cache2 size2 skipped2 with
      | none => none
      | some (bs, cache3, size3, skipped3) => some (rb ++ bs, cache3, size3, skipped3)

/-- The additional-section loop of `DnsPacket::encode_to_buf_with_cache`:
an OPT record is encoded with no budget (its size was reserved up front)
and does not contribute to the running size. -/
def additionals_encode (max_size : Option Nat) :
    List ResourceRecord → Nat → LabelCache → Nat → Nat →
    Option (List Nat × LabelCache × Nat × Nat)
  | [], _, cache, size, skipped => some ([], cache, size, skipped)
  | rr :: rest, pos, cache, size, skipped =>
    let item_max : Option Nat :=
      if rr.resource_data.get_query_type = QueryType.OPT then none
      else max_size.map (fun m => m - size)
    match rr_encode pos cache rr item_max with
    | none => none
    | some (rb, cache2, encoded_size) =>
      let size2 :=
        if rr.resource_data.get_query_type = QueryType.OPT then size
        else if encoded_size = 0 then size else size + encoded_size
      let skipped2 := if encoded_size = 0 then skipped + 1 else skipped
      match additionals_encode max_size rest (pos + rb.length) cache2 size2 skipped2 with
      | none => none
      | some (bs, cache3, size3, skipped3) => some (rb ++ bs, cache3, size3, skipped3)

/-- `DnsPacket::encode_to_buf_with_cache` (`lib.rs` lines 94-246) as a
pure function on an initially empty buffer and a fresh label cache, which
is how `encode_to_buf` invokes it.  The header is written at offset 0 and
patched afterwards when anything was skipped; writing the final header
first produces byte-identical output because the patch rewrites exactly
the flag word and the four counts. -/
def DnsPacket.encode_to_buf (packet : DnsPacket) (max_size : Option Nat) :
    Option (List Nat) :=
  if (match max_size with | some m => decide (m < 12) | none => false) then none
  else
    let opt_rr := packet.edns.bind (fun idx => packet.additionals.get? idx)
    let opt_rr_size := match opt_rr with
      | some rr => rr.get_encoded_size none
      | none => 0
    if (match opt_rr, max_size with
        | some rr, some m => decide (rr.get_encoded_size none + 12 > m)
        | _, _ => false) then none
    else
      let size0 := 12 + opt_rr_size
      match questions_encode max_size packet.questions 12 [] size0 0 with
      | none => none
      | some (qbytes, cache1, size1, skippedQ) =>
        match rrs_encode max_size packet.answers (12 + qbytes.length) cache1 size1 0 with
        | none => none
        | some (anbytes, cache2, size2, skippedAn) =>
          match rrs_encode max_size packet.authorities
              (12 + qbytes.length + anbytes.length) cache2 size2 0 with
          | none => none
          | some (aubytes, cache3, size3, skippedAu) =>
            match additionals_encode max_size packet.additionals
                (12 + qbytes.length + anbytes.length + aubytes.length) cache3 size3 0 with
            | none => none
            | some (adbytes, _, _, skippedAd) =>
              let truncation :=
                skippedQ + skippedAn + skippedAu + skippedAd > 0
              let header :=
                if truncation then
                  { packet.header with
                    truncation := true
                    question_count := packet.header.question_count - skippedQ
                    answer_rr_count := packet.header.answer_rr_count - skippedAn
                    authority_rr_count := packet.header.authority_rr_count - skippedAu
                    additional_rr_count := packet.header.additional_rr_count - skippedAd }
                else packet.header
              some (headerBytes header ++ qbytes ++ anbytes ++ aubytes ++ adbytes)

/-- The question-section read loop of `DnsPacket::from_buf`. -/
def questions_from_buf (buf : List Nat) (fuel : Nat) :
    Nat → Nat → Res (List Question)
  | 0, pos => .ok [] pos
  | n + 1, pos =>
    match question_from_buf buf fuel pos with
    | .ok q pos2 =>
      match questions_from_buf buf fuel n pos2 with
      | .ok qs pos3 => .ok (q :: qs) pos3
      | .err => .err
      | .spin => .spin
    | .err => .err
    | .spin => .spin

/-- The answer/authority-section read loop of `DnsPacket::from_buf`. -/
def rrs_from_buf (buf : List Nat) (fuel : Nat) :
    Nat → Nat → Res (List ResourceRecord)
  | 0, pos => .ok [] pos
  | n + 1, pos =>
    match rr_from_buf buf fuel pos with
    | .ok rr pos2 =>
      match rrs_from_buf buf fuel n pos2 with
      | .ok rrs pos3 => .ok (rr :: rrs) pos3
      | .err => .err
      | .spin => .spin
    | .err => .err
    | .spin => .spin

/-- The additional-section read loop of `DnsPacket::from_buf`: records
the index of the OPT record and fails on a second OPT. -/
def additionals_from_buf (buf : List Nat) (fuel : Nat) :
    Nat → Nat → Option Nat → List ResourceRecord →
    Res (List ResourceRecord × Option Nat)
  | 0, pos, edns, acc => .ok (acc, edns) pos
  | n + 1, pos, edns, acc =>
    match rr_from_buf buf fuel pos with
    | .ok rr pos2 =>
      if rr.resource_data.get_query_type = QueryType.OPT then
        match edns with
        | some _ => .err
        | none => additionals_from_buf buf fuel n pos2 (some acc.length) (acc ++ [rr])
      else additionals_from_buf buf fuel n pos2 edns (acc ++ [rr])
    | .err => .err
    | .spin => .spin

/-- `DnsPacket::from_buf` (`lib.rs` lines 43-92), reading from offset 0. -/
def DnsPacket.from_buf (buf : List Nat) (fuel : Nat) : Res DnsPacket :=
  match header_from_buf buf 0 with
  | none => .err
  | some (header, pos) =>
    match questions_from_buf buf fuel header.question_count pos with
    | .ok questions pos2 =>
      match rrs_from_buf buf fuel header.answer_rr_count pos2 with
      | .ok answers pos3 =>
        match rrs_from_buf buf fuel header.authority_rr_count pos3 with
        | .ok authorities pos4 =>
          match additionals_from_buf buf fuel header.additional_rr_count pos4 none [] with
          | .ok (additionals, edns) pos5 =>
            .ok { header := header, edns := edns, questions := questions,
                  answers := answers, authorities := authorities,
                  additionals := additionals } pos5
          | .err => .err
          | .spin => .spin
        | .err => .err
        | .spin => .spin
      | .err => .err
      | .spin => .spin
    | .err => .err
    | .spin => .spin

/-! ### Wire codec: validity of packets -/

/-- The labels that the encoder actually emits for a qname: the nonempty
pieces of the dot-split. -/
def nlabels (q : List Nat) : List (List Nat) :=
  (splitOnDot q).filter (fun l => !l.isEmpty)

/-- A qname that survives the encode/decode round trip: either the root
name `""`, or a name with no empty labels (no leading, trailing or double
dots); every label at most 63 bytes and valid UTF-8 (automatic for Rust
strings, which slice into valid UTF-8 labels). -/
def validQname (q : List Nat) : Bool :=
  (q.isEmpty || (splitOnDot q).all (fun l => !l.isEmpty)) &&
    (splitOnDot q).all (fun l => l.length ≤ 63 && utf8Valid l)

/-- A query type that survives the round trip: a named variant, or an
UNKNOWN code that is in u16 range and is not one of the recognized codes
(which would decode to the named variant instead). -/
def validQtype : QueryType → Bool
  | .UNKNOWN t =>
    decide (t < 65536) &&
      !(t = 1 || t = 2 || t = 5 || t = 28 || t = 41 || t = 255)
  | _ => true

/-- Validity of a question: qname, query type and a u16 class. -/
def validQuestion (question : Question) : Bool :=
  validQname question.qname && validQtype question.query_type &&
    decide (question.qclass < 65536)

/-- Validity of RDATA: addresses of the right width, valid target qnames,
UNKNOWN data below 64 KiB with a truly unknown type, and OPT options that
are nonempty when present, with distinct u16 codes, option data below
64 KiB each and a total RDLENGTH below 64 KiB. -/
def validRData : ResourceData → Bool
  | .UNKNOWN t rdata =>
    validQtype (.UNKNOWN t) && decide (rdata.length < 65536) &&
      rdata.all (fun b => decide (b < 256))
  | .A address => decide (address.length = 4) && address.all (fun b => decide (b < 256))
  | .AAAA address => decide (address.length = 16) && address.all (fun b => decide (b < 256))
  | .NS n => validQname n
  | .CNAME n => validQname n
  | .OPT options =>
    match options with
    | none => true
    | some opts =>
      !opts.isEmpty &&
        decide ((opts.map (fun o => o.1)).Nodup) &&
        opts.all (fun o => decide (o.1 < 65536) && decide (o.2.length < 65536) &&
          o.2.all (fun b => decide (b < 256))) &&
        decide (opts.foldl (fun acc o => acc + (4 + o.2.length)) 0 < 65536)

/-- Validity of a resource record. -/
def validRR (rr : ResourceRecord) : Bool :=
  validQname rr.name && decide (rr.rclass < 65536) &&
    decide (rr.ttl < 4294967296) && validRData rr.resource_data

/-- Whether a record is the OPT pseudo-record. -/
def isOptRR (rr : ResourceRecord) : Bool :=
  rr.resource_data.get_query_type = QueryType.OPT

/-- An upper bound on the encoded size of a packet: the header plus the
uncompressed (`label_cache = None`) size estimate of every question and
record; compression only shrinks the output. -/
def packetUB (packet : DnsPacket) : Nat :=
  12 + (packet.questions.map (fun q => q.get_encoded_size none)).sum +
    ((packet.answers ++ packet.authorities ++ packet.additionals).map
      (fun rr => rr.get_encoded_size none)).sum

/-- A valid packet: section counts match section lengths (and fit in
u16), every question and record is valid, the `edns` index points at the
single OPT record of the additional section exactly when one is present,
and the total size stays below 2^14 so that every compression pointer
offset fits in the 14 pointer bits. -/
def validPacket (packet : DnsPacket) : Bool :=
  decide (packet.header.id < 65536) &&
  decide (packet.header.question_count = packet.questions.length) &&
  decide (packet.header.answer_rr_count = packet.answers.length) &&
  decide (packet.header.authority_rr_count = packet.authorities.length) &&
  decide (packet.header.additional_rr_count = packet.additionals.length) &&
  decide (packet.questions.length < 65536) &&
  decide (packet.answers.length < 65536) &&
  decide (packet.authorities.length < 65536) &&
  decide (packet.additionals.length < 65536) &&
  packet.questions.all validQuestion &&
  packet.answers.all validRR &&
  packet.authorities.all validRR &&
  packet.additionals.all validRR &&
  decide (packet.edns = packet.additionals.findIdx? isOptRR) &&
  decide ((packet.additionals.filter isOptRR).length ≤ 1) &&
  decide (packetUB packet ≤ 16383)

/-- `ReadsName buf off ls`: reading a name at offset `off` with the
`jumped` flag already set succeeds with the labels `ls` and returns the
untouched cursor, for every sufficiently large fuel. -/
def ReadsName (buf : List Nat) (off : Nat) (ls : List (List Nat)) : Prop :=
  ∃ k, ∀ f, k ≤ f → ∀ spos acc,
    readQnameGo buf f off spos true acc = Res.ok (acc ++ ls) spos

/-- `ReadsBoth buf off ls endP`: reading a name at offset `off` succeeds
with the labels `ls` both in already-jumped mode (returning the untouched
cursor) and in top-level mode with the cursor starting at `off`
(returning `endP`), for every sufficiently large fuel. -/
def ReadsBoth (buf : List Nat) (off : Nat) (ls : List (List Nat)) (endP : Nat) : Prop :=
  ∃ k, ∀ f, k ≤ f →
    (∀ spos acc, readQnameGo buf f off spos true acc = Res.ok (acc ++ ls) spos) ∧
    (∀ acc, readQnameGo buf f off off false acc = Res.ok (acc ++ ls) endP)

/-- The label-cache invariant: every cached binding maps a qname suffix
to an offset below the 2^14 pointer limit from which reading a name in
already-jumped mode yields exactly the suffix's nonempty labels. -/
def CacheOK (cache : LabelCache) (body : List Nat) : Prop :=
  ∀ s off, (s, off) ∈ cache →
    off < 16384 ∧ ReadsName body off (nlabels s)

/-- The number of bytes reserved for the OPT record by
`DnsPacket::encode_to_buf_with_cache` (`opt_rr_size` in `lib.rs`). -/
def packetOptSize (packet : DnsPacket) : Nat :=
  match packet.edns.bind (fun idx => packet.additionals.get? idx) with
  | some rr => rr.get_encoded_size none
  | none => 0

/-- Spec-side characterization of the inputs on which the `read_qname`
loop reaches a decoding error: following the chain of labels and
compression pointers from `pos`, the loop runs into a missing length
byte or missing terminator (reading past the end), a missing pointer
byte, label bytes that extend past the end, or a label that is not valid
UTF-8.  A plain length byte of 64..191 is an ordinary label, not an
error. -/
inductive BadQname (buf : List Nat) : Nat → Prop where
  | truncated (pos : Nat) :
      buf.length < pos + 1 → BadQname buf pos
  | ptrTruncated (pos : Nat) :
      buf.getD pos 0 &&& 192 = 192 → buf.length < pos + 2 → BadQname buf pos
  | labelTruncated (pos : Nat) :
      pos + 1 ≤ buf.length → ¬buf.getD pos 0 &&& 192 = 192 → buf.getD pos 0 ≠ 0 →
      buf.length < pos + 1 + buf.getD pos 0 → BadQname buf pos
  | badUtf8 (pos : Nat) :
      pos + 1 ≤ buf.length → ¬buf.getD pos 0 &&& 192 = 192 → buf.getD pos 0 ≠ 0 →
      pos + 1 + buf.getD pos 0 ≤ buf.length →
      utf8Valid ((buf.drop (pos + 1)).take (buf.getD pos 0)) = false →
      BadQname buf pos
  | ptrStep (pos : Nat) :
      pos + 1 ≤ buf.length → buf.getD pos 0 &&& 192 = 192 → pos + 2 ≤ buf.length →
      BadQname buf (((buf.getD pos 0 ^^^ 192) <<< 8) ||| buf.getD (pos + 1) 0) →
      BadQname buf pos
  | labelStep (pos : Nat) :
      pos + 1 ≤ buf.length → ¬buf.getD pos 0 &&& 192 = 192 → buf.getD pos 0 ≠ 0 →
      pos + 1 + buf.getD pos 0 ≤ buf.length →
      utf8Valid ((buf.drop (pos + 1)).take (buf.getD pos 0)) = true →
      BadQname buf (pos + 1 + buf.getD pos 0) →
      BadQname buf pos



theorem get_response_answers_nil (r : Option DnsPacket) (c : Option ResponseCode) :
    (get_response_dns_packet r c).answers = [] := by
  unfold get_response_dns_packet
  cases r <;> cases c <;> dsimp only <;>
    first
    | rfl
    | (repeat' split) <;> rfl

theorem get_response_questions_nil (r : Option DnsPacket) (c : Option ResponseCode) :
    (get_response_dns_packet r c).questions = [] := by
  unfold get_response_dns_packet
  cases r <;> cases c <;> dsimp only <;>
    first
    | rfl
    | (repeat' split) <;> rfl

theorem denylist_lookup_miss (hash : HashFn) (denylist : Denylist)
    (question : Question) (pkt : DnsPacket)
    (h : denylist.contains_entry hash question.qname = false) :
    denylist_lookup hash denylist question pkt = (false, pkt) := by
  unfold denylist_lookup
  simp [h]

theorem allow_push_foldl (question : Question) (l : List ResourceData) (pkt : DnsPacket) :
    l.foldl (fun packet rdata =>
      { packet with
        answers := packet.answers ++ [allow_rr question rdata]
        header := { packet.header with
          answer_rr_count := packet.header.answer_rr_count + 1 } }) pkt =
    { pkt with
      answers := pkt.answers ++ l.map (allow_rr question)
      header := { pkt.header with
        answer_rr_count := pkt.header.answer_rr_count + l.length } } := by
  induction l generalizing pkt with
  | nil => simp
  | cons r rest ih =>
    rw [List.foldl_cons, ih]
    cases pkt with
    | mk header edns questions answers authorities additionals =>
      cases header
      simp [List.append_assoc]
      omega

theorem allowlist_lookup_entry (hash : HashFn) (hosts : Hosts)
    (question : Question) (pkt : DnsPacket) (records : List ResourceData)
    (h : hosts.get_entry hash question.qname = some records) :
    allowlist_lookup hash hosts question pkt =
      (!(pkt.answers ++ (records.filter (qtype_matches question)).map (allow_rr question)).isEmpty,
       { pkt with
         answers := pkt.answers ++ (records.filter (qtype_matches question)).map (allow_rr question)
         header := { pkt.header with
           is_authoritative := true
           answer_rr_count :=
             pkt.header.answer_rr_count + (records.filter (qtype_matches question)).length } }) := by
  unfold allowlist_lookup
  rw [h]
  dsimp only
  rw [allow_push_foldl]

/-! ### Codec lemmas: dot splitting and joining -/

theorem splitOnDot_ne_nil' (l : List Nat) : splitOnDot l ≠ [] := by
  cases l with
  | nil => simp [splitOnDot]
  | cons b rest =>
    unfold splitOnDot
    cases h : splitOnDot rest with
    | nil => simp
    | cons cur parts => by_cases hb : b = dotByte <;> simp [hb]

theorem not_dot_mem_splitOnDot (l : List Nat) :
    ∀ p, p ∈ splitOnDot l → dotByte ∉ p := by
  induction l with
  | nil => intro p hp; simp [splitOnDot] at hp; simp [hp]
  | cons b rest ih =>
    intro p hp
    unfold splitOnDot at hp
    cases h : splitOnDot rest with
    | nil => exact absurd h (splitOnDot_ne_nil' rest)
    | cons cur parts =>
      rw [h] at hp
      dsimp only at hp
      by_cases hb : b = dotByte
      · rw [if_pos hb] at hp
        rcases List.mem_cons.mp hp with hp | hp
        · simp [hp]
        · exact ih p (by rw [h]; exact hp)
      · rw [if_neg hb] at hp
        rcases List.mem_cons.mp hp with hp | hp
        · subst hp
          intro hmem
          rcases List.mem_cons.mp hmem with hmem | hmem
          · exact hb hmem.symm
          · exact ih cur (by rw [h]; exact List.mem_cons_self cur parts) hmem
        · exact ih p (by rw [h]; exact List.mem_cons_of_mem cur hp)

theorem joinDots_splitOnDot (l : List Nat) : joinDots (splitOnDot l) = l := by
  induction l with
  | nil => rfl
  | cons b rest ih =>
    unfold splitOnDot
    cases h : splitOnDot rest with
    | nil => exact absurd h (splitOnDot_ne_nil' rest)
    | cons cur parts =>
      rw [h] at ih
      dsimp only
      by_cases hb : b = dotByte
      · rw [if_pos hb]
        subst hb
        cases parts with
        | nil => simpa [joinDots] using ih
        | cons c2 p2 => simpa [joinDots] using ih
      · rw [if_neg hb]
        cases parts with
        | nil => simpa [joinDots] using ih
        | cons c2 p2 => simpa [joinDots] using ih

theorem splitOnDot_no_dot (p : List Nat) (h : dotByte ∉ p) : splitOnDot p = [p] := by
  induction p with
  | nil => rfl
  | cons b rest ih =>
    have hb : b ≠ dotByte := fun hb => h (by simp [hb])
    have hrest : dotByte ∉ rest := fun hr => h (List.mem_cons_of_mem b hr)
    unfold splitOnDot
    rw [ih hrest]
    dsimp only
    rw [if_neg hb]

theorem splitOnDot_append_dot (p t : List Nat) (h : dotByte ∉ p) :
    splitOnDot (p ++ dotByte :: t) = p :: splitOnDot t := by
  induction p with
  | nil =>
    cases ht : splitOnDot t with
    | nil => exact absurd ht (splitOnDot_ne_nil' t)
    | cons cur parts => simp [splitOnDot, ht]
  | cons b rest ih =>
    have hb : b ≠ dotByte := fun hb => h (by simp [hb])
    have hrest : dotByte ∉ rest := fun hr => h (List.mem_cons_of_mem b hr)
    have ih2 := ih hrest
    show splitOnDot (b :: (rest ++ dotByte :: t)) = (b :: rest) :: splitOnDot t
    conv_lhs => rw [splitOnDot]
    rw [ih2]
    dsimp only
    rw [if_neg hb]

theorem splitOnDot_joinDots (parts : List (List Nat)) (hne : parts ≠ [])
    (hnd : ∀ p ∈ parts, dotByte ∉ p) :
    splitOnDot (joinDots parts) = parts := by
  induction parts with
  | nil => exact absurd rfl hne
  | cons p rest ih =>
    cases rest with
    | nil =>
      show splitOnDot (joinDots [p]) = [p]
      exact splitOnDot_no_dot p (hnd p (by simp))
    | cons p2 rest2 =>
      show splitOnDot (p ++ dotByte :: joinDots (p2 :: rest2)) = p :: p2 :: rest2
      rw [splitOnDot_append_dot _ _ (hnd p (by simp))]
      rw [ih (by simp) (fun x hx => hnd x (List.mem_cons_of_mem p hx))]

theorem joinDots_nlabels (q : List Nat) (h : validQname q = true) :
    joinDots (nlabels q) = q := by
  unfold validQname at h
  rw [Bool.and_eq_true] at h
  rcases h with ⟨h1, -⟩
  rw [Bool.or_eq_true] at h1
  rcases h1 with h1 | h1
  · have : q = [] := by simpa using h1
    subst this
    rfl
  · have : nlabels q = splitOnDot q := by
      unfold nlabels
      rw [List.filter_eq_self]
      intro a ha
      exact (List.all_eq_true.mp h1) a ha
    rw [this, joinDots_splitOnDot]

theorem nlabels_suffixFrom (q : List Nat) (idx : Nat)
    (hidx : idx < (splitOnDot q).length) :
    nlabels (suffixFrom q idx) = ((splitOnDot q).drop idx).filter (fun l => !l.isEmpty) := by
  unfold nlabels suffixFrom
  rw [splitOnDot_joinDots]
  · intro hd
    have : (splitOnDot q).length ≤ idx := by
      have := List.drop_eq_nil_iff.mp hd
      omega
    omega
  · intro p hp
    exact not_dot_mem_splitOnDot q p (List.mem_of_mem_drop hp)

/-! ### Codec lemmas: reading back written bytes -/

theorem getD_append_right' : ∀ (pre post : List Nat) (i d : Nat),
    (pre ++ post).getD (pre.length + i) d = post.getD i d := by
  intro pre
  induction pre with
  | nil => intro post i d; simp
  | cons a l ih =>
    intro post i d
    have : l.length + 1 + i = (l.length + i) + 1 := by omega
    simp only [List.cons_append, List.length_cons, this, List.getD_cons_succ]
    exact ih post i d

theorem u16Bytes_length (n : Nat) : (u16Bytes n).length = 2 := rfl

theorem u32Bytes_length (n : Nat) : (u32Bytes n).length = 4 := rfl

theorem u16Bytes_lt (n : Nat) : ∀ b ∈ u16Bytes n, b < 256 := by
  intro b hb
  simp [u16Bytes] at hb
  rcases hb with hb | hb <;> omega

theorem readU16_window (pre tail : List Nat) (n : Nat) (h : n < 65536) :
    readU16 (pre ++ u16Bytes n ++ tail) pre.length = some n := by
  unfold readU16
  rw [if_pos (by simp only [List.length_append, u16Bytes_length]; omega)]
  have h0 : (pre ++ u16Bytes n ++ tail).getD (pre.length + 0) 0 = n / 256 % 256 := by
    rw [List.append_assoc, getD_append_right']
    rfl
  have h1 : (pre ++ u16Bytes n ++ tail).getD (pre.length + 1) 0 = n % 256 := by
    rw [List.append_assoc, getD_append_right']
    rfl
  rw [show pre.length = pre.length + 0 from rfl, h0]
  rw [show pre.length + 0 + 1 = pre.length + 1 from rfl, h1]
  congr 1
  omega

theorem readBytesAt_window (pre x tail : List Nat) :
    readBytesAt (pre ++ x ++ tail) pre.length x.length = some x := by
  unfold readBytesAt
  rw [if_pos (by simp only [List.length_append]; omega)]
  rw [List.append_assoc, List.drop_left]
  simp [List.take_left]

theorem u32Bytes_split (n : Nat) :
    u32Bytes n = u16Bytes (n / 65536) ++ u16Bytes (n % 65536) := by
  refine List.ext_getElem (by rfl) ?_
  intro i h1 h2
  match i with
  | 0 => show n / 16777216 % 256 = (n / 65536) / 256 % 256; omega
  | 1 => show n / 65536 % 256 = (n / 65536) % 256; omega
  | 2 => show n / 256 % 256 = (n % 65536) / 256 % 256; omega
  | 3 => show n % 256 = (n % 65536) % 256; omega

theorem u16_reconstruct (msb lsb : Nat) (h : lsb < 65536) :
    msb <<< 16 ||| lsb = msb * 65536 + lsb := by
  have := Nat.mul_add_lt_is_or (i := 16) (b := lsb) (by simpa using h) msb
  rw [Nat.shiftLeft_eq]
  simpa [Nat.mul_comm] using this.symm

/-! ### Codec lemmas: buffer windows and association lists -/

theorem getD_drop (buf : List Nat) (off i d : Nat) :
    (buf.drop off).getD i d = buf.getD (off + i) d := by
  rw [List.getD_eq_getElem?_getD, List.getD_eq_getElem?_getD, List.getElem?_drop]

theorem drop_take_append (buf ext : List Nat) (p n : Nat) (h : p + n ≤ buf.length) :
    ((buf ++ ext).drop p).take n = (buf.drop p).take n := by
  have hd : (buf ++ ext).drop p = buf.drop p ++ ext :=
    List.drop_append_of_le_length (by omega)
  rw [hd, List.take_append_eq_append_take]
  have hn : n - (buf.drop p).length = 0 := by
    simp only [List.length_drop]; omega
  rw [hn]
  simp

theorem lookup_mem (s : List Nat) (off : Nat) :
    ∀ cache : LabelCache, List.lookup s cache = some off → (s, off) ∈ cache := by
  intro cache
  induction cache with
  | nil => intro h; exact absurd h (by simp)
  | cons x rest ih =>
    intro h
    rw [List.lookup_cons] at h
    by_cases he : s == x.1
    · simp only [he] at h
      injection h with h
      have hs : s = x.1 := by simpa using he
      have hx : (s, off) = x := by rw [hs, ← h]
      rw [hx]
      exact List.mem_cons_self x rest
    · simp only [Bool.not_eq_true] at he
      rw [he] at h
      exact List.mem_cons_of_mem x (ih h)

theorem lookup_cons_isSome (s : List Nat) (x : List Nat × Nat) (cache : LabelCache)
    (h : (List.lookup s cache).isSome = true) :
    (List.lookup s (x :: cache)).isSome = true := by
  cases x with
  | mk k v =>
    rw [List.lookup_cons]
    cases he : s == k
    · simpa using h
    · simp

theorem insertOption_append (acc : List (Nat × List Nat)) (c : Nat) (d : List Nat)
    (h : c ∉ acc.map Prod.fst) :
    insertOption acc c d = acc ++ [(c, d)] := by
  induction acc with
  | nil => rfl
  | cons x rest ih =>
    have hx : x.1 ≠ c := by
      intro he
      exact h (by simp [← he])
    cases x with
    | mk xc xd =>
      simp only [insertOption]
      rw [if_neg hx]
      rw [ih (by intro hm; exact h (List.mem_cons_of_mem _ hm))]
      simp

theorem readQnameGo_append (buf ext : List Nat) :
    ∀ (f pos spos : Nat) (jumped : Bool) (labels ls : List (List Nat)) (p : Nat),
      readQnameGo buf f pos spos jumped labels = Res.ok ls p →
      readQnameGo (buf ++ ext) f pos spos jumped labels = Res.ok ls p := by
  intro f
  induction f with
  | zero =>
    intro pos spos jumped labels ls p h
    exact absurd h (by simp [readQnameGo])
  | succ f ih =>
    intro pos spos jumped labels ls p h
    simp only [readQnameGo] at h ⊢
    by_cases h1 : pos + 1 ≤ buf.length
    · have h1' : pos + 1 ≤ (buf ++ ext).length := by
        simp only [List.length_append]; omega
      rw [if_pos h1] at h
      rw [if_pos h1']
      have hgd : (buf ++ ext).getD pos 0 = buf.getD pos 0 :=
        List.getD_append _ _ _ _ (by omega)
      rw [hgd]
      by_cases h2 : buf.getD pos 0 &&& 192 = 192
      · rw [if_pos h2] at h ⊢
        by_cases h3 : pos + 2 ≤ buf.length
        · have h3' : pos + 2 ≤ (buf ++ ext).length := by
            simp only [List.length_append]; omega
          rw [if_pos h3] at h
          rw [if_pos h3']
          have hgd2 : (buf ++ ext).getD (pos + 1) 0 = buf.getD (pos + 1) 0 :=
            List.getD_append _ _ _ _ (by omega)
          rw [hgd2]
          exact ih _ _ _ _ _ _ h
        · rw [if_neg h3] at h
          exact absurd h (by simp)
      · rw [if_neg h2] at h ⊢
        by_cases h4 : buf.getD pos 0 ≠ 0
        · rw [if_pos h4] at h ⊢
          by_cases h5 : pos + 1 + buf.getD pos 0 ≤ buf.length
          · have h5' : pos + 1 + buf.getD pos 0 ≤ (buf ++ ext).length := by
              simp only [List.length_append]; omega
            rw [if_pos h5] at h
            rw [if_pos h5']
            have hsl : ((buf ++ ext).drop (pos + 1)).take (buf.getD pos 0) =
                (buf.drop (pos + 1)).take (buf.getD pos 0) :=
              drop_take_append buf ext (pos + 1) (buf.getD pos 0) (by omega)
            rw [hsl]
            by_cases h6 : utf8Valid ((buf.drop (pos + 1)).take (buf.getD pos 0)) = true
            · rw [if_pos h6] at h ⊢
              exact ih _ _ _ _ _ _ h
            · rw [if_neg h6] at h
              exact absurd h (by simp)
          · rw [if_neg h5] at h
            exact absurd h (by simp)
        · rw [if_neg h4] at h ⊢
          exact h
    · rw [if_neg h1] at h
      exact absurd h (by simp)

theorem ReadsName_append (buf ext : List Nat) (off : Nat) (ls : List (List Nat))
    (h : ReadsName buf off ls) : ReadsName (buf ++ ext) off ls := by
  obtain ⟨k, hk⟩ := h
  exact ⟨k, fun f hf spos acc => readQnameGo_append buf ext f off spos true acc _ _ (hk f hf spos acc)⟩

theorem ReadsBoth_name (buf : List Nat) (off : Nat) (ls : List (List Nat)) (endP : Nat)
    (h : ReadsBoth buf off ls endP) : ReadsName buf off ls := by
  obtain ⟨k, hk⟩ := h
  exact ⟨k, fun f hf spos acc => (hk f hf).1 spos acc⟩

theorem CacheOK_append (cache : LabelCache) (buf ext : List Nat)
    (h : CacheOK cache buf) : CacheOK cache (buf ++ ext) := by
  intro s off hmem
  obtain ⟨h1, h2⟩ := h s off hmem
  exact ⟨h1, ReadsName_append buf ext off _ h2⟩

theorem CacheOK_nil (buf : List Nat) : CacheOK [] buf := by
  intro s off hmem
  exact absurd hmem (by simp)

/-! ### Codec lemmas: compression pointer bytes -/

theorem ptr_or_eq_add (off : Nat) (h : off < 16384) : 49152 ||| off = 49152 + off := by
  have := Nat.mul_add_lt_is_or (i := 14) (b := off) (by simpa using h) 3
  simpa using this.symm

theorem ptr_byte_facts (hi : Nat) (h : hi < 64) :
    (192 + hi) &&& 192 = 192 ∧ (192 + hi) ^^^ 192 = hi := by
  revert h
  revert hi
  decide

theorem ptr_bytes_decode (off : Nat) (h : off < 16384) :
    (49152 ||| off) / 256 % 256 &&& 192 = 192 ∧
      (((49152 ||| off) / 256 % 256 ^^^ 192) <<< 8) ||| (49152 ||| off) % 256 = off := by
  rw [ptr_or_eq_add off h]
  have hb0 : (49152 + off) / 256 % 256 = 192 + off / 256 := by omega
  have hb1 : (49152 + off) % 256 = off % 256 := by omega
  rw [hb0, hb1]
  obtain ⟨hf1, hf2⟩ := ptr_byte_facts (off / 256) (by omega)
  refine ⟨hf1, ?_⟩
  rw [hf2]
  have := Nat.mul_add_lt_is_or (i := 8) (b := off % 256) (by simpa using Nat.mod_lt off (by omega)) (off / 256)
  rw [Nat.shiftLeft_eq]
  have heq : off / 256 * 2 ^ 8 = 2 ^ 8 * (off / 256) := by ring
  rw [heq, ← this]
  omega

/-! ### Codec lemmas: query types and u16 values -/

theorem qtype_lt (t : QueryType) (h : validQtype t = true) : queryTypeToU16 t < 65536 := by
  cases t with
  | UNKNOWN code =>
    simp only [validQtype, Bool.and_eq_true, decide_eq_true_eq] at h
    exact h.1
  | A => decide
  | NS => decide
  | CNAME => decide
  | AAAA => decide
  | OPT => decide
  | ANY => decide

theorem qtype_roundtrip (t : QueryType) (h : validQtype t = true) :
    queryTypeFromU16 (queryTypeToU16 t) = t := by
  cases t with
  | UNKNOWN code =>
    have h1 : code ≠ 1 := fun he => by subst he; simp [validQtype] at h
    have h2 : code ≠ 2 := fun he => by subst he; simp [validQtype] at h
    have h3 : code ≠ 5 := fun he => by subst he; simp [validQtype] at h
    have h4 : code ≠ 28 := fun he => by subst he; simp [validQtype] at h
    have h5 : code ≠ 41 := fun he => by subst he; simp [validQtype] at h
    have h6 : code ≠ 255 := fun he => by subst he; simp [validQtype] at h
    simp only [queryTypeToU16, queryTypeFromU16]
    rw [if_neg h1, if_neg h2, if_neg h3, if_neg h4, if_neg h5, if_neg h6]
  | A => rfl
  | NS => rfl
  | CNAME => rfl
  | AAAA => rfl
  | OPT => rfl
  | ANY => rfl

theorem ttl_reconstruct (ttl : Nat) (h : ttl < 4294967296) :
    (ttl / 65536) <<< 16 ||| ttl % 65536 = ttl := by
  have := Nat.mul_add_lt_is_or (i := 16) (b := ttl % 65536)
    (by simpa using Nat.mod_lt ttl (by omega)) (ttl / 65536)
  rw [Nat.shiftLeft_eq]
  have heq : ttl / 65536 * 2 ^ 16 = 2 ^ 16 * (ttl / 65536) := by ring
  rw [heq, ← this]
  omega

theorem foldl_add_sum (g : Nat × List Nat → Nat) :
    ∀ (l : List (Nat × List Nat)) (init : Nat),
      l.foldl (fun a o => a + g o) init = init + (l.map g).sum := by
  intro l
  induction l with
  | nil => intro init; simp
  | cons x xs ih =>
    intro init
    simp only [List.foldl_cons, List.map_cons, List.sum_cons]
    rw [ih]
    omega

/-! ### Codec lemmas: qname encoder sizes -/

theorem qnameMaxGo_pos (c : Option LabelCache) (q : List Nat) :
    ∀ (labs : List (List Nat)) (idx : Nat), 1 ≤ qnameMaxGo c q labs idx := by
  intro labs
  induction labs with
  | nil => intro idx; exact Nat.le_refl _
  | cons label rest ih =>
    intro idx
    simp only [qnameMaxGo]
    by_cases he : label.isEmpty
    · rw [if_pos he]; exact ih (idx + 1)
    · rw [if_neg he]
      split
      · omega
      · omega

theorem qnameMaxGo_anti (c1 c2 : Option LabelCache) (q : List Nat)
    (hsub : ∀ s, (c1.bind (fun c => List.lookup s c)).isSome = true →
      (c2.bind (fun c => List.lookup s c)).isSome = true) :
    ∀ (labs : List (List Nat)) (idx : Nat),
      qnameMaxGo c2 q labs idx ≤ qnameMaxGo c1 q labs idx := by
  intro labs
  induction labs with
  | nil => intro idx; exact Nat.le_refl _
  | cons label rest ih =>
    intro idx
    simp only [qnameMaxGo]
    by_cases he : label.isEmpty
    · rw [if_pos he, if_pos he]; exact ih (idx + 1)
    · rw [if_neg he, if_neg he]
      have hlab : 1 ≤ label.length := by
        cases label with
        | nil => simp at he
        | cons a b => simp
      cases hc1 : c1.bind (fun c => List.lookup (suffixFrom q idx) c) with
      | some v =>
        have hs := hsub (suffixFrom q idx) (by rw [hc1]; rfl)
        cases hc2 : c2.bind (fun c => List.lookup (suffixFrom q idx) c) with
        | some w => dsimp only; omega
        | none => rw [hc2] at hs; simp at hs
      | none =>
        cases hc2 : c2.bind (fun c => List.lookup (suffixFrom q idx) c) with
        | some w =>
          dsimp only
          have := qnameMaxGo_pos c1 q rest (idx + 1)
          omega
        | none =>
          dsimp only
          have := ih (idx + 1)
          omega

theorem get_max_anti_cons (q k : List Nat) (v : Nat) (cache : LabelCache) :
    get_max_encoded_qname_size q (some ((k, v) :: cache)) ≤
      get_max_encoded_qname_size q (some cache) := by
  apply qnameMaxGo_anti
  intro s hs
  simp only [Option.some_bind] at hs ⊢
  exact lookup_cons_isSome s (k, v) cache hs

theorem get_max_le_none (q : List Nat) (cache : LabelCache) :
    get_max_encoded_qname_size q (some cache) ≤ get_max_encoded_qname_size q none := by
  apply qnameMaxGo_anti
  intro s hs
  simp at hs

theorem encQnameGo_spec (cache : LabelCache) (q : List Nat) :
    ∀ (labs : List (List Nat)) (idx : Nat), (∀ l ∈ labs, l.length ≤ 63) →
      ∃ bytes total used, encQnameGo cache q labs idx = some (bytes, total, used) ∧
        bytes.length = total ∧
        total + (if used then 0 else 1) = qnameMaxGo (some cache) q labs idx := by
  intro labs
  induction labs with
  | nil =>
    intro idx hlen
    exact ⟨[], 0, false, rfl, rfl, rfl⟩
  | cons label rest ih =>
    intro idx hlen
    obtain ⟨bytes, total, used, henc, hbl, hqm⟩ :=
      ih (idx + 1) (fun l hl => hlen l (List.mem_cons_of_mem _ hl))
    have hle : ¬label.length > 63 := by
      have := hlen label (List.mem_cons_self _ _)
      omega
    by_cases he : label.isEmpty
    · refine ⟨bytes, total, used, ?_, hbl, ?_⟩
      · simp only [encQnameGo]
        rw [if_neg hle, if_pos he]
        exact henc
      · simp only [qnameMaxGo]
        rw [if_pos he]
        exact hqm
    · cases hc : List.lookup (suffixFrom q idx) cache with
      | some off =>
        refine ⟨u16Bytes (49152 ||| off % 65536), 2, true, ?_, rfl, ?_⟩
        · simp only [encQnameGo]
          rw [if_neg hle, if_neg he, hc]
        · simp only [qnameMaxGo, Option.some_bind]
          rw [if_neg he, hc]
          simp
      | none =>
        refine ⟨(label.length :: label) ++ bytes, 1 + label.length + total, used, ?_, ?_, ?_⟩
        · simp only [encQnameGo]
          rw [if_neg hle, if_neg he, hc]
          dsimp only
          rw [henc]
        · simp only [List.length_append, List.length_cons]
          omega
        · simp only [qnameMaxGo, Option.some_bind]
          rw [if_neg he, hc]
          cases used with
          | true => simp only [if_true] at hqm ⊢; omega
          | false => simp only [if_false] at hqm ⊢; omega

theorem write_qname_spec (pos : Nat) (cache : LabelCache) (q : List Nat)
    (hlen : ∀ l ∈ splitOnDot q, l.length ≤ 63) :
    ∃ qb cache', write_qname pos cache q = some (qb, cache', qb.length) ∧
      qb.length = get_max_encoded_qname_size q (some cache) ∧
      (cache' = (q, pos) :: cache ∨ cache' = cache) := by
  obtain ⟨bytes, total, used, henc, hbl, hqm⟩ := encQnameGo_spec cache q (splitOnDot q) 0 hlen
  have hqmax : get_max_encoded_qname_size q (some cache) = qnameMaxGo (some cache) q (splitOnDot q) 0 := rfl
  cases used with
  | true =>
    have hpos : total > 0 := by
      have := qnameMaxGo_pos (some cache) q (splitOnDot q) 0
      simp only [if_true] at hqm
      omega
    refine ⟨bytes, (q, pos) :: cache, ?_, ?_, Or.inl rfl⟩
    · simp only [write_qname, henc]
      rw [if_pos hpos, hbl]
      simp
    · simp only [if_true] at hqm
      rw [hqmax]
      omega
  | false =>
    refine ⟨bytes ++ [0], if total > 0 then (q, pos) :: cache else cache, ?_, ?_, ?_⟩
    · simp only [write_qname, henc]
      have hl1 : (bytes ++ [0]).length = total + 1 := by simp [hbl]
      simp only [Bool.false_eq_true, if_false, hl1]
    · simp only [Bool.false_eq_true, if_false] at hqm
      rw [hqmax]
      simp only [List.length_append, List.length_cons, List.length_nil]
      omega
    · by_cases ht : total > 0
      · rw [if_pos ht]; exact Or.inl rfl
      · rw [if_neg ht]; exact Or.inr rfl

/-! ### Codec lemmas: header flag word -/

theorem readU16_at (buf pre tail : List Nat) (n pos : Nat) (hn : n < 65536)
    (hb : buf = pre ++ u16Bytes n ++ tail) (hp : pos = pre.length) :
    readU16 buf pos = some n := by
  subst hb
  subst hp
  exact readU16_window pre tail n hn

theorem readBytesAt_at (buf pre x tail : List Nat) (pos n : Nat)
    (hb : buf = pre ++ x ++ tail) (hp : pos = pre.length) (hn : n = x.length) :
    readBytesAt buf pos n = some x := by
  subst hb
  subst hp
  subst hn
  exact readBytesAt_window pre x tail

set_option maxRecDepth 2000 in
theorem byte_low_masks : ∀ sb, sb < 256 → sb &&& 32768 = 0 ∧ sb &&& 30720 = 0 ∧
    sb &&& 1024 = 0 ∧ sb &&& 512 = 0 ∧ sb &&& 256 = 0 := by decide

set_option maxRecDepth 2000 in
theorem byte_high_extract : ∀ fb, fb < 256 →
    ((fb <<< 8) &&& 32768) >>> 15 = fb / 128 ∧
    ((fb <<< 8) &&& 30720) >>> 11 = fb / 8 % 16 ∧
    ((fb <<< 8) &&& 1024) >>> 10 = fb / 4 % 2 ∧
    ((fb <<< 8) &&& 512) >>> 9 = fb / 2 % 2 ∧
    ((fb <<< 8) &&& 256) >>> 8 = fb % 2 ∧
    (fb <<< 8) &&& 128 = 0 ∧ (fb <<< 8) &&& 64 = 0 ∧ (fb <<< 8) &&& 32 = 0 ∧
    (fb <<< 8) &&& 16 = 0 ∧ (fb <<< 8) &&& 15 = 0 := by decide

set_option maxRecDepth 2000 in
theorem byte_low_extract : ∀ sb, sb < 256 →
    (sb &&& 128) >>> 7 = sb / 128 ∧ (sb &&& 64) >>> 6 = sb / 64 % 2 ∧
    (sb &&& 32) >>> 5 = sb / 32 % 2 ∧ (sb &&& 16) >>> 4 = sb / 16 % 2 ∧
    sb &&& 15 = sb % 16 := by decide

theorem bitVal_le (b : Bool) : bitVal b ≤ 1 := by cases b <;> decide

theorem opcodeToU8_le (op : QueryOpcode) : opcodeToU8 op ≤ 3 := by cases op <;> decide

theorem responseCodeToU8_le (rc : ResponseCode) : responseCodeToU8 rc ≤ 6 := by
  cases rc <;> decide

theorem opcodeFromU8_toU8 (op : QueryOpcode) : opcodeFromU8 (opcodeToU8 op) = op := by
  cases op <;> rfl

theorem responseCodeFromU8_toU8 (rc : ResponseCode) :
    responseCodeFromU8 (responseCodeToU8 rc) = rc := by cases rc <;> rfl

theorem fb_sum (r : Bool) (op : QueryOpcode) (aa tc rd : Bool) :
    bitVal r <<< 7 ||| opcodeToU8 op <<< 3 ||| bitVal aa <<< 2 ||| bitVal tc <<< 1 |||
      bitVal rd =
    128 * bitVal r + 8 * opcodeToU8 op + 4 * bitVal aa + 2 * bitVal tc + bitVal rd := by
  cases r <;> cases aa <;> cases tc <;> cases rd <;> cases op <;> decide

theorem sb_sum (ra za zb zc : Bool) (rc : ResponseCode) :
    bitVal ra <<< 7 ||| bitVal za <<< 6 ||| bitVal zb <<< 5 ||| bitVal zc <<< 4 |||
      responseCodeToU8 rc =
    128 * bitVal ra + 64 * bitVal za + 32 * bitVal zb + 16 * bitVal zc +
      responseCodeToU8 rc := by
  cases ra <;> cases za <;> cases zb <;> cases zc <;> cases rc <;> decide

theorem or_as_add_bytes (fb sb : Nat) (hfb : fb < 256) (hsb : sb < 256) :
    fb <<< 8 ||| sb = fb * 256 + sb := by
  have := Nat.mul_add_lt_is_or (i := 8) (b := sb) (by simpa using hsb) fb
  rw [Nat.shiftLeft_eq]
  have heq : fb * 2 ^ 8 = 2 ^ 8 * fb := by ring
  rw [heq, ← this]
  omega

theorem flags_decompose (r : Bool) (op : QueryOpcode) (aa tc rd ra za zb zc : Bool)
    (rc : ResponseCode) :
    DnsHeader.get_flags ⟨0, r, op, aa, tc, rd, ra, za, zb, zc, rc, 0, 0, 0, 0⟩ < 65536 ∧
    decide ((DnsHeader.get_flags ⟨0, r, op, aa, tc, rd, ra, za, zb, zc, rc, 0, 0, 0, 0⟩ &&& 32768) >>> 15 = 1) = r ∧
    opcodeFromU8 ((DnsHeader.get_flags ⟨0, r, op, aa, tc, rd, ra, za, zb, zc, rc, 0, 0, 0, 0⟩ &&& 30720) >>> 11) = op ∧
    decide ((DnsHeader.get_flags ⟨0, r, op, aa, tc, rd, ra, za, zb, zc, rc, 0, 0, 0, 0⟩ &&& 1024) >>> 10 = 1) = aa ∧
    decide ((DnsHeader.get_flags ⟨0, r, op, aa, tc, rd, ra, za, zb, zc, rc, 0, 0, 0, 0⟩ &&& 512) >>> 9 = 1) = tc ∧
    decide ((DnsHeader.get_flags ⟨0, r, op, aa, tc, rd, ra, za, zb, zc, rc, 0, 0, 0, 0⟩ &&& 256) >>> 8 = 1) = rd ∧
    decide ((DnsHeader.get_flags ⟨0, r, op, aa, tc, rd, ra, za, zb, zc, rc, 0, 0, 0, 0⟩ &&& 128) >>> 7 = 1) = ra ∧
    decide ((DnsHeader.get_flags ⟨0, r, op, aa, tc, rd, ra, za, zb, zc, rc, 0, 0, 0, 0⟩ &&& 64) >>> 6 = 1) = za ∧
    decide ((DnsHeader.get_flags ⟨0, r, op, aa, tc, rd, ra, za, zb, zc, rc, 0, 0, 0, 0⟩ &&& 32) >>> 5 = 1) = zb ∧
    decide ((DnsHeader.get_flags ⟨0, r, op, aa, tc, rd, ra, za, zb, zc, rc, 0, 0, 0, 0⟩ &&& 16) >>> 4 = 1) = zc ∧
    responseCodeFromU8 (DnsHeader.get_flags ⟨0, r, op, aa, tc, rd, ra, za, zb, zc, rc, 0, 0, 0, 0⟩ &&& 15) = rc := by
  have hfb := fb_sum r op aa tc rd
  have hsb := sb_sum ra za zb zc rc
  have hbr := bitVal_le r
  have hbaa := bitVal_le aa
  have hbtc := bitVal_le tc
  have hbrd := bitVal_le rd
  have hbra := bitVal_le ra
  have hbza := bitVal_le za
  have hbzb := bitVal_le zb
  have hbzc := bitVal_le zc
  have hop := opcodeToU8_le op
  have hrc := responseCodeToU8_le rc
  have hfblt : bitVal r <<< 7 ||| opcodeToU8 op <<< 3 ||| bitVal aa <<< 2 |||
      bitVal tc <<< 1 ||| bitVal rd < 256 := by rw [hfb]; omega
  have hsblt : bitVal ra <<< 7 ||| bitVal za <<< 6 ||| bitVal zb <<< 5 |||
      bitVal zc <<< 4 ||| responseCodeToU8 rc < 256 := by rw [hsb]; omega
  obtain ⟨e1, e2, e3, e4, e5, z1, z2, z3, z4, z5⟩ := byte_high_extract _ hfblt
  obtain ⟨l1, l2, l3, l4, l5⟩ := byte_low_masks _ hsblt
  obtain ⟨m1, m2, m3, m4, m5⟩ := byte_low_extract _ hsblt
  have hfl : DnsHeader.get_flags ⟨0, r, op, aa, tc, rd, ra, za, zb, zc, rc, 0, 0, 0, 0⟩ =
      (bitVal r <<< 7 ||| opcodeToU8 op <<< 3 ||| bitVal aa <<< 2 ||| bitVal tc <<< 1 |||
        bitVal rd) <<< 8 |||
      (bitVal ra <<< 7 ||| bitVal za <<< 6 ||| bitVal zb <<< 5 ||| bitVal zc <<< 4 |||
        responseCodeToU8 rc) := rfl
  rw [hfl]
  rw [or_as_add_bytes _ _ hfblt hsblt] at hfl
  refine ⟨?_, ?_, ?_, ?_, ?_, ?_, ?_, ?_, ?_, ?_, ?_⟩
  · rw [or_as_add_bytes _ _ hfblt hsblt]
    omega
  · rw [Nat.and_distrib_right, l1, Nat.or_zero, e1]
    have hv : (bitVal r <<< 7 ||| opcodeToU8 op <<< 3 ||| bitVal aa <<< 2 |||
        bitVal tc <<< 1 ||| bitVal rd) / 128 = bitVal r := by rw [hfb]; omega
    rw [hv]
    cases r <;> rfl
  · rw [Nat.and_distrib_right, l2, Nat.or_zero, e2]
    have hv : (bitVal r <<< 7 ||| opcodeToU8 op <<< 3 ||| bitVal aa <<< 2 |||
        bitVal tc <<< 1 ||| bitVal rd) / 8 % 16 = opcodeToU8 op := by rw [hfb]; omega
    rw [hv]
    exact opcodeFromU8_toU8 op
  · rw [Nat.and_distrib_right, l3, Nat.or_zero, e3]
    have hv : (bitVal r <<< 7 ||| opcodeToU8 op <<< 3 ||| bitVal aa <<< 2 |||
        bitVal tc <<< 1 ||| bitVal rd) / 4 % 2 = bitVal aa := by rw [hfb]; omega
    rw [hv]
    cases aa <;> rfl
  · rw [Nat.and_distrib_right, l4, Nat.or_zero, e4]
    have hv : (bitVal r <<< 7 ||| opcodeToU8 op <<< 3 ||| bitVal aa <<< 2 |||
        bitVal tc <<< 1 ||| bitVal rd) / 2 % 2 = bitVal tc := by rw [hfb]; omega
    rw [hv]
    cases tc <;> rfl
  · rw [Nat.and_distrib_right, l5, Nat.or_zero, e5]
    have hv : (bitVal r <<< 7 ||| opcodeToU8 op <<< 3 ||| bitVal aa <<< 2 |||
        bitVal tc <<< 1 ||| bitVal rd) % 2 = bitVal rd := by rw [hfb]; omega
    rw [hv]
    cases rd <;> rfl
  · rw [Nat.and_distrib_right, z1, Nat.zero_or, m1]
    have hv : (bitVal ra <<< 7 ||| bitVal za <<< 6 ||| bitVal zb <<< 5 |||
        bitVal zc <<< 4 ||| responseCodeToU8 rc) / 128 = bitVal ra := by rw [hsb]; omega
    rw [hv]
    cases ra <;> rfl
  · rw [Nat.and_distrib_right, z2, Nat.zero_or, m2]
    have hv : (bitVal ra <<< 7 ||| bitVal za <<< 6 ||| bitVal zb <<< 5 |||
        bitVal zc <<< 4 ||| responseCodeToU8 rc) / 64 % 2 = bitVal za := by rw [hsb]; omega
    rw [hv]
    cases za <;> rfl
  · rw [Nat.and_distrib_right, z3, Nat.zero_or, m3]
    have hv : (bitVal ra <<< 7 ||| bitVal za <<< 6 ||| bitVal zb <<< 5 |||
        bitVal zc <<< 4 ||| responseCodeToU8 rc) / 32 % 2 = bitVal zb := by rw [hsb]; omega
    rw [hv]
    cases zb <;> rfl
  · rw [Nat.and_distrib_right, z4, Nat.zero_or, m4]
    have hv : (bitVal ra <<< 7 ||| bitVal za <<< 6 ||| bitVal zb <<< 5 |||
        bitVal zc <<< 4 ||| responseCodeToU8 rc) / 16 % 2 = bitVal zc := by rw [hsb]; omega
    rw [hv]
    cases zc <;> rfl
  · rw [Nat.and_distrib_right, z5, Nat.zero_or, m5]
    have hv : (bitVal ra <<< 7 ||| bitVal za <<< 6 ||| bitVal zb <<< 5 |||
        bitVal zc <<< 4 ||| responseCodeToU8 rc) % 16 = responseCodeToU8 rc := by
      rw [hsb]; omega
    rw [hv]
    exact responseCodeFromU8_toU8 rc

/-! ### Claim theorems: QNAME decoding (C3, C9) -/

theorem readQnameGo_err_badQname (buf : List Nat) (fuel : Nat) :
    ∀ pos spos jumped labels,
      readQnameGo buf fuel pos spos jumped labels = Res.err →
      BadQname buf pos := by
  induction fuel with
  | zero => intro pos spos jumped labels h; cases h
  | succ n ih =>
    intro pos spos jumped labels h
    rw [readQnameGo] at h
    by_cases h1 : pos + 1 ≤ buf.length
    · rw [if_pos h1] at h
      by_cases hptr : buf.getD pos 0 &&& 192 = 192
      · rw [if_pos hptr] at h
        by_cases h2 : pos + 2 ≤ buf.length
        · rw [if_pos h2] at h
          exact BadQname.ptrStep pos h1 hptr h2 (ih _ _ _ _ h)
        · exact BadQname.ptrTruncated pos hptr (by omega)
      · rw [if_neg hptr] at h
        by_cases h0 : buf.getD pos 0 ≠ 0
        · rw [if_pos h0] at h
          by_cases h3 : pos + 1 + buf.getD pos 0 ≤ buf.length
          · rw [if_pos h3] at h
            by_cases h4 : utf8Valid ((buf.drop (pos + 1)).take (buf.getD pos 0)) = true
            · rw [if_pos h4] at h
              exact BadQname.labelStep pos h1 hptr h0 h3 h4 (ih _ _ _ _ h)
            · exact BadQname.badUtf8 pos h1 hptr h0 h3 (by
                cases hv : utf8Valid ((buf.drop (pos + 1)).take (buf.getD pos 0))
                · rfl
                · exact absurd hv h4)
          · exact BadQname.labelTruncated pos h1 hptr h0 (by omega)
        · rw [if_neg h0] at h
          cases h
    · exact BadQname.truncated pos (by omega)

theorem badQname_readQnameGo_err (buf : List Nat) (pos : Nat)
    (hbad : BadQname buf pos) :
    ∀ spos jumped labels, ∃ fuel,
      readQnameGo buf fuel pos spos jumped labels = Res.err := by
  induction hbad with
  | truncated pos h =>
    intro spos jumped labels
    exact ⟨1, by rw [readQnameGo, if_neg (by omega)]⟩
  | ptrTruncated pos hptr h =>
    intro spos jumped labels
    refine ⟨1, ?_⟩
    rw [readQnameGo]
    by_cases h1 : pos + 1 ≤ buf.length
    · rw [if_pos h1, if_pos hptr, if_neg (by omega)]
    · rw [if_neg h1]
  | labelTruncated pos h1 hptr h0 h3 =>
    intro spos jumped labels
    refine ⟨1, ?_⟩
    rw [readQnameGo, if_pos h1, if_neg hptr, if_pos h0, if_neg (by omega)]
  | badUtf8 pos h1 hptr h0 h3 h4 =>
    intro spos jumped labels
    refine ⟨1, ?_⟩
    rw [readQnameGo, if_pos h1, if_neg hptr, if_pos h0, if_pos h3,
      if_neg (by rw [h4]; exact Bool.noConfusion)]
  | ptrStep pos h1 hptr h2 _ ih =>
    intro spos jumped labels
    obtain ⟨fuel, hf⟩ := ih (if jumped then spos else spos + 2) true labels
    exact ⟨fuel + 1, by rw [readQnameGo, if_pos h1, if_pos hptr, if_pos h2]; exact hf⟩
  | labelStep pos h1 hptr h0 h3 h4 _ ih =>
    intro spos jumped labels
    obtain ⟨fuel, hf⟩ := ih (if jumped then spos else pos + 1 + buf.getD pos 0) jumped
      (labels ++ [(buf.drop (pos + 1)).take (buf.getD pos 0)])
    exact ⟨fuel + 1, by rw [readQnameGo, if_pos h1, if_neg hptr, if_pos h0,
      if_pos h3, if_pos h4]; exact hf⟩

/-- C3 counterexample: a plain (non-pointer) label whose length byte is
64 — greater than 63, with both top bits not set — decodes successfully
as an ordinary 64-byte label; `ByteBuf::read_qname` has no length-63
check (only bytes ≥ 192 are pointers), so the claim that decoding fails
on such labels is false. -/
theorem c3_counterexample :
    read_qname ([64] ++ List.replicate 64 97 ++ [0]) 100 0 =
      Res.ok (List.replicate 64 97) 66 ∧
    (64 &&& 192 = 192) = False ∧ 63 < 64 := by
  refine ⟨by decide, by decide, by decide⟩

/-- C3 (amended): `ByteBuf::read_qname` fails with an error exactly on
the inputs where the label/pointer chain from the read position runs
into a premature end of the buffer (a missing length byte, pointer byte,
label byte, or zero terminator) or a label that is not valid UTF-8; a
plain label length byte in 64..191 is accepted as an ordinary label of
that length, the 63-byte limit being enforced only by the encoder. -/
theorem c3_read_qname_err_iff (buf : List Nat) (pos : Nat) :
    (∃ fuel, read_qname buf fuel pos = Res.err) ↔ BadQname buf pos := by
  constructor
  · rintro ⟨fuel, h⟩
    unfold read_qname at h
    cases hg : readQnameGo buf fuel pos pos false [] with
    | ok labels spos => rw [hg] at h; cases h
    | err => exact readQnameGo_err_badQname buf fuel pos pos false [] hg
    | spin => rw [hg] at h; cases h
  · intro hbad
    obtain ⟨fuel, hf⟩ := badQname_readQnameGo_err buf pos hbad pos false []
    exact ⟨fuel, by unfold read_qname; rw [hf]⟩

theorem c9_spin_aux : ∀ (fuel spos : Nat) (labels : List (List Nat)),
    readQnameGo [192, 0] fuel 0 spos true labels = Res.spin := by
  intro fuel
  induction fuel with
  | zero => intro spos labels; rfl
  | succ n ih => intro spos labels; exact ih spos labels

/-- C9 (code bug): `ByteBuf::read_qname` does not terminate on the
two-byte buffer `[0xC0, 0x00]`, a compression pointer that targets its
own offset: for every amount of fuel the loop is still running (`spin`),
never returning `Ok` or `Err`.  The source loop has no jump-count guard,
so a crafted packet makes the resolver task loop forever. -/
theorem c9_read_qname_diverges :
    ∀ fuel, read_qname [192, 0] fuel 0 = Res.spin := by
  intro fuel
  unfold read_qname
  cases fuel with
  | zero => rfl
  | succ n =>
    have hstep : readQnameGo [192, 0] (n + 1) 0 0 false [] =
        readQnameGo [192, 0] n 0 2 true [] := rfl
    rw [hstep, c9_spin_aux n 2 []]

/-! ### Claim theorems: cache behaviour -/

/-- C8: for every cache lookup in which the query's EDNS DO bit is set and
the stored `CachedQuery` does not carry the DNSSEC flag,
`Cache::question_lookup` reports a miss (returns `false`), so the query
proceeds to upstream resolution instead of being answered from cache. -/
theorem c8_dnssec_gate_misses (hashQ : Question → Nat) (now : Nat)
    (cache : Cache) (question : Question) (response_packet : DnsPacket)
    (cached_query : CachedQuery)
    (hq : cache.query_cache.lookup (hashQ question) = some cached_query)
    (hfl : cached_query.flag_dnssec = false) :
    (Cache.question_lookup hashQ now cache question response_packet true).1 = false := by
  unfold Cache.question_lookup
  rw [hq]
  by_cases hstale : cached_query.ttd ≤ now - cached_query.added
  · simp [hstale]
  · simp [hstale, hfl]

/-- Witness for C8 at a concrete cache, question and packet. -/
theorem c8_dnssec_gate_misses_witness :
    c8Cache.query_cache.lookup (hashQZero c5Question) = some c8CachedQuery ∧
    c8CachedQuery.flag_dnssec = false ∧
    (Cache.question_lookup hashQZero 7 c8Cache c5Question c10Packet true).1 = false := by
  refine ⟨by decide, by decide, ?_⟩
  exact c8_dnssec_gate_misses hashQZero 7 c8Cache c5Question c10Packet
    c8CachedQuery (by decide) (by decide)

/-- C10 counterexample: `Cache::question_lookup` can return `false` (a
miss found partway through the cached answer list) while having already
appended a record to the answer section, incremented the answer count and
overwritten the AD flag of the response packet. -/
theorem c10_counterexample :
    (Cache.question_lookup c10HashQ 0 c10Cache c5Question c10Packet false).1 = false ∧
    (Cache.question_lookup c10HashQ 0 c10Cache c5Question c10Packet false).2 ≠ c10Packet ∧
    (Cache.question_lookup c10HashQ 0 c10Cache c5Question c10Packet false).2.answers ≠
      c10Packet.answers ∧
    (Cache.question_lookup c10HashQ 0 c10Cache c5Question c10Packet false).2.header.z1 ≠
      c10Packet.header.z1 := by
  decide

/-- C10 (amended): `Cache::question_lookup` leaves the response packet
unchanged whenever the miss is detected before the section walk begins:
when the query hash is absent, when the entry is stale, or when the
DNSSEC gate fails.  (A miss detected partway through the walk can leave
already-appended records, incremented counts and a modified AD flag, as
the counterexample shows.) -/
theorem c10_early_miss_leaves_packet (hashQ : Question → Nat) (now : Nat)
    (cache : Cache) (question : Question) (response_packet : DnsPacket)
    (dnssec : Bool)
    (h : cache.query_cache.lookup (hashQ question) = none ∨
      ∃ cq, cache.query_cache.lookup (hashQ question) = some cq ∧
        (cq.ttd ≤ now - cq.added ∨ (dnssec = true ∧ cq.flag_dnssec = false))) :
    Cache.question_lookup hashQ now cache question response_packet dnssec =
      (false, response_packet) := by
  unfold Cache.question_lookup
  rcases h with h | ⟨cq, hcq, hmiss⟩
  · rw [h]
  · rw [hcq]
    rcases hmiss with hstale | ⟨hd, hfl⟩
    · simp [hstale]
    · by_cases hstale : cq.ttd ≤ now - cq.added
      · simp [hstale]
      · simp [hstale, hd, hfl]

/-- Witness for the amended C10 at a concrete empty cache. -/
theorem c10_early_miss_leaves_packet_witness :
    emptyCache.query_cache.lookup (hashQZero c5Question) = none ∧
    Cache.question_lookup hashQZero 3 emptyCache c5Question c10Packet false =
      (false, c10Packet) := by
  refine ⟨by decide, ?_⟩
  exact c10_early_miss_leaves_packet hashQZero 3 emptyCache c5Question c10Packet
    false (Or.inl (by decide))

/-! ### Claim theorems: resolver pipeline -/

/-- C4 (code bug): a successfully parsed query with `question_count = 0`
and an empty questions section passes the `> 1` validation of
`Resolver::resolve_query` and then panics on `questions[0]`; the model
returns `none` exactly at that out-of-bounds indexing.  The claim (and
the spec, which demands FormatError for `question_count ≠ 1`) expects a
FormatError response instead. -/
theorem c4_zero_questions_panics :
    resolve_query hashZero hashQZero emptyDenylist emptyHosts emptyCache 0
      none (some DnsPacket.new) = none := by
  decide

set_option maxHeartbeats 1000000 in
theorem resolve_core_flag_upstream (hash : HashFn) (hashQ : Question → Nat)
    (denylist : Denylist) (hosts : Hosts) (cache : Cache) (now : Nat)
    (upstream : Option DnsPacket) (parsed_packet : Option DnsPacket)
    (outcome : ResolveOutcome)
    (h : resolve_core hash hashQ denylist hosts cache now upstream parsed_packet =
      some outcome)
    (hc : outcome.cache_response = true) :
    outcome.source = some ResponseSource.Upstream := by
  cases parsed_packet with
  | none =>
    simp only [resolve_core] at h
    injection h with h
    subst h
    exact Bool.noConfusion hc
  | some query_packet =>
    simp only [resolve_core] at h
    repeat' split at h
    all_goals
      first
      | exact Option.noConfusion h
      | (injection h with h; subst h; rfl)
      | (injection h with h; subst h; exact Bool.noConfusion hc)

theorem resolve_query_to_core (hash : HashFn) (hashQ : Question → Nat)
    (denylist : Denylist) (hosts : Hosts) (cache : Cache) (now : Nat)
    (upstream : Option DnsPacket) (parsed_packet : Option DnsPacket)
    (outcome : ResolveOutcome)
    (h : resolve_query hash hashQ denylist hosts cache now upstream parsed_packet =
      some outcome) :
    ∃ core, resolve_core hash hashQ denylist hosts cache now upstream parsed_packet =
        some core ∧
      outcome.cache_response = core.cache_response ∧
      outcome.source = core.source ∧
      outcome.response.answers = core.response.answers := by
  unfold resolve_query at h
  cases hco : resolve_core hash hashQ denylist hosts cache now upstream parsed_packet with
  | none => rw [hco] at h; exact Option.noConfusion h
  | some core =>
    rw [hco] at h
    refine ⟨core, rfl, ?_⟩
    dsimp only at h
    split at h
    · split at h
      · injection h with h; subst h; exact ⟨rfl, rfl, rfl⟩
      · injection h with h; subst h; exact ⟨rfl, rfl, rfl⟩
    · injection h with h; subst h; exact ⟨rfl, rfl, rfl⟩

/-- C7: a response whose source is Denylist, Allowlist, NoRecurse, Cache,
or FormatError (i.e. any response not produced by the upstream branch of
`Resolver::resolve_query`) is never inserted into the response cache: the
cache-write step leaves the cache unchanged. -/
theorem c7_non_upstream_never_cached (hash : HashFn) (hashQ : Question → Nat)
    (hashR : CachedRecord → Nat) (denylist : Denylist) (hosts : Hosts)
    (cache : Cache) (now : Nat) (upstream : Option DnsPacket)
    (parsed_packet : Option DnsPacket) (outcome : ResolveOutcome)
    (h : resolve_query hash hashQ denylist hosts cache now upstream parsed_packet =
      some outcome)
    (hs : outcome.source ≠ some ResponseSource.Upstream) :
    outcome.cache_response = false ∧
      resolve_cache_write hashQ hashR now cache outcome.response
        outcome.cache_response = some cache := by
  have hflag : outcome.cache_response = false := by
    obtain ⟨core, hco, hflag, hsrc, -⟩ := resolve_query_to_core hash hashQ denylist
      hosts cache now upstream parsed_packet outcome h
    cases hcr : core.cache_response
    · rw [hflag, hcr]
    · rw [hsrc] at hs
      exact absurd (resolve_core_flag_upstream hash hashQ denylist hosts cache
        now upstream parsed_packet core hco hcr) hs
  refine ⟨hflag, ?_⟩
  rw [hflag]
  rfl

/-- Witness for C7 at the concrete FormatError outcome of an unparseable
query. -/
theorem c7_non_upstream_never_cached_witness :
    resolve_query hashZero hashQZero emptyDenylist emptyHosts emptyCache 0
      none none = some c7OutcomeW ∧
    c7OutcomeW.source ≠ some ResponseSource.Upstream ∧
    (c7OutcomeW.cache_response = false ∧
      resolve_cache_write hashQZero hashRZero 0 emptyCache c7OutcomeW.response
        c7OutcomeW.cache_response = some emptyCache) := by
  refine ⟨by decide, by decide, ?_⟩
  exact c7_non_upstream_never_cached hashZero hashQZero hashRZero emptyDenylist
    emptyHosts emptyCache 0 none none c7OutcomeW (by decide) (by decide)

/-- C5 counterexample: with a hosts list that has a (CNAME) entry for the
qname but no record matching the A question, `Resolver::resolve_query`
does not stop at the allowlist branch: it falls through to the
no-recursion shortcut, contradicting the claim that a hosts hit always
proceeds directly to encoding with Source=Allowlist. -/
theorem c5_counterexample :
    c5Hosts.get_entry hashZero c5Question.qname =
      some [ResourceData.CNAME [98, 46, 99]] ∧
    resolve_query hashZero hashQZero emptyDenylist c5Hosts emptyCache 0 none
      (some c5Query) = some c5OutcomeW ∧
    c5OutcomeW.source = some ResponseSource.NoRecurse ∧
    c5OutcomeW.source ≠ some ResponseSource.Allowlist := by
  refine ⟨by decide, by decide, by decide, by decide⟩

/-- C5 (amended): if the qname has hosts-list entries and at least one
stored record matches the question type (any record for ANY), the
resolver sets the AA bit, answers with every matching record with TTL
180, reports Source=Allowlist and proceeds directly to encoding without
consulting the cache or the upstream resolver; when no stored record
matches, the allowlist branch is not taken (the counterexample shows the
fall-through). -/
theorem c5_allowlist_needs_match (hash : HashFn) (hashQ : Question → Nat)
    (denylist : Denylist) (hosts : Hosts) (cache : Cache) (now : Nat)
    (upstream : Option DnsPacket) (qp : DnsPacket) (question : Question)
    (records : List ResourceData)
    (hq : qp.questions = [question])
    (hcnt : qp.header.question_count ≤ 1)
    (hdeny : denylist.contains_entry hash question.qname = false)
    (hhosts : hosts.get_entry hash question.qname = some records)
    (hmatch : records.any (qtype_matches question) = true) :
    ∃ outc, resolve_query hash hashQ denylist hosts cache now upstream (some qp) =
        some outc ∧
      outc.source = some ResponseSource.Allowlist ∧
      outc.cache_response = false ∧
      outc.response.header.is_authoritative = true ∧
      outc.response.answers =
        (records.filter (qtype_matches question)).map (allow_rr question) := by
  have hnil : (get_response_dns_packet (some qp) none).answers = [] :=
    get_response_answers_nil _ _
  have hqnil : (get_response_dns_packet (some qp) none).questions = [] :=
    get_response_questions_nil _ _
  have hmapped :
      ((records.filter (qtype_matches question)).map (allow_rr question)).isEmpty = false := by
    obtain ⟨r, hr, hpr⟩ := List.any_eq_true.mp hmatch
    have hrf : r ∈ records.filter (qtype_matches question) :=
      List.mem_filter.mpr ⟨hr, hpr⟩
    have hrm : allow_rr question r ∈
        (records.filter (qtype_matches question)).map (allow_rr question) :=
      List.mem_map_of_mem _ hrf
    cases hcase : (records.filter (qtype_matches question)).map (allow_rr question) with
    | nil => rw [hcase] at hrm; cases hrm
    | cons a l => rfl
  have hcore : resolve_core hash hashQ denylist hosts cache now upstream (some qp) =
      some { response := { get_response_dns_packet (some qp) none with
               answers :=
                 (records.filter (qtype_matches question)).map (allow_rr question)
               header := { (get_response_dns_packet (some qp) none).header with
                 is_authoritative := true
                 answer_rr_count :=
                   (get_response_dns_packet (some qp) none).header.answer_rr_count +
                     (records.filter (qtype_matches question)).length } }
             cache_response := false
             source := some ResponseSource.Allowlist } := by
    simp only [resolve_core]
    rw [if_neg (by rw [hq]; simp; omega)]
    rw [hq]
    simp only [List.get?]
    rw [denylist_lookup_miss hash denylist question _ hdeny]
    dsimp only
    rw [allowlist_lookup_entry hash hosts question _ records hhosts]
    dsimp only
    rw [hnil]
    simp only [List.nil_append, hmapped]
    simp
  unfold resolve_query
  rw [hcore]
  dsimp only
  simp only [hqnil]
  exact ⟨_, rfl, rfl, rfl, rfl, rfl⟩

/-- Witness for the amended C5 at a concrete hosts list with a matching
A record. -/
theorem c5_allowlist_needs_match_witness :
    c5Query.questions = [c5Question] ∧
    c5HostsW.get_entry hashZero c5Question.qname = some [ResourceData.A [1, 2, 3, 4]] ∧
    ([ResourceData.A [1, 2, 3, 4]] : List ResourceData).any (qtype_matches c5Question) = true ∧
    (∃ outc, resolve_query hashZero hashQZero emptyDenylist c5HostsW emptyCache 0
        none (some c5Query) = some outc ∧
      outc.source = some ResponseSource.Allowlist ∧
      outc.cache_response = false ∧
      outc.response.header.is_authoritative = true ∧
      outc.response.answers =
        (([ResourceData.A [1, 2, 3, 4]] : List ResourceData).filter
          (qtype_matches c5Question)).map (allow_rr c5Question)) := by
  refine ⟨rfl, by decide, by decide, ?_⟩
  exact c5_allowlist_needs_match hashZero hashQZero emptyDenylist c5HostsW
    emptyCache 0 none c5Query c5Question [ResourceData.A [1, 2, 3, 4]]
    rfl (by decide) (by decide) (by decide) (by decide)

/-! ### Claim theorems: denylist membership (C6) -/

theorem splitOnDot_ne_nil (l : List Nat) : splitOnDot l ≠ [] := by
  cases l with
  | nil => simp [splitOnDot]
  | cons b rest =>
    unfold splitOnDot
    cases h : splitOnDot rest with
    | nil => simp
    | cons cur parts => by_cases hb : b = dotByte <;> simp [hb]

theorem find_wildcard_match_iff (hash : HashFn) (dl : Denylist) (q : List Nat) :
    dl.find_wildcard_match hash q = true ↔
      ∃ i lab, 1 ≤ i ∧ (splitOnDot q)[i]? = some lab ∧ lab ≠ [] ∧
        hash (some dotStarBytes) (suffixFrom q i) ∈ dl.entries := by
  obtain ⟨c, parts, hsplit⟩ : ∃ c parts, splitOnDot q = c :: parts := by
    cases h : splitOnDot q with
    | nil => exact absurd h (splitOnDot_ne_nil q)
    | cons c parts => exact ⟨c, parts, rfl⟩
  unfold Denylist.find_wildcard_match find_wildcard_parts
  rw [hsplit, List.enum_cons, List.drop_succ_cons, List.drop_zero]
  rw [List.any_eq_true]
  constructor
  · rintro ⟨x, hx, hcont⟩
    obtain ⟨part, hpart, rfl⟩ := List.mem_map.mp hx
    obtain ⟨p, hp, hfp⟩ := List.mem_filterMap.mp hpart
    obtain ⟨i, lab⟩ := p
    by_cases hpe : lab = []
    · rw [if_pos hpe] at hfp
      cases hfp
    · rw [if_neg hpe] at hfp
      obtain ⟨hle, hget⟩ := List.mk_mem_enumFrom_iff_le_and_getElem?_sub.mp hp
      injection hfp with hfp
      subst hfp
      refine ⟨i, lab, hle, ?_, hpe, ?_⟩
      · obtain ⟨j, rfl⟩ : ∃ j, i = j + 1 := ⟨i - 1, by omega⟩
        simpa using hget
      · simpa using hcont
  · rintro ⟨i, lab, hle, hget, hpe, hmem⟩
    refine ⟨hash (some dotStarBytes) (suffixFrom q i), ?_, by simpa using hmem⟩
    refine List.mem_map.mpr ⟨suffixFrom q i, ?_, rfl⟩
    refine List.mem_filterMap.mpr ⟨(i, lab), ?_, ?_⟩
    · refine List.mk_mem_enumFrom_iff_le_and_getElem?_sub.mpr ⟨hle, ?_⟩
      obtain ⟨j, rfl⟩ : ∃ j, i = j + 1 := ⟨i - 1, by omega⟩
      simpa using hget
    · rw [if_neg hpe]

/-- C6: `Denylist::contains_entry q` returns true if and only if the hash
of `q` is in the exact-match set, or the hash (with the prefix `*.`) of
some parent suffix of `q` — obtained by dropping `i ≥ 1` leading labels
where the label at position `i` is nonempty — is in the exact-match set,
or at least one stored regex matches `q`. -/
theorem c6_denylist_contains_iff (hash : HashFn) (dl : Denylist) (q : List Nat) :
    dl.contains_entry hash q = true ↔
      hash none q ∈ dl.entries ∨
      (∃ i lab, 1 ≤ i ∧ (splitOnDot q)[i]? = some lab ∧ lab ≠ [] ∧
        hash (some dotStarBytes) (suffixFrom q i) ∈ dl.entries) ∨
      (∃ pr, pr ∈ dl.regexes ∧ pr.2 q = true) := by
  have hform : dl.contains_entry hash q =
      (dl.entries.contains (hash none q) || dl.find_wildcard_match hash q ||
        dl.regexes.any (fun pr => pr.2 q)) := by
    unfold Denylist.contains_entry
    by_cases h1 : dl.entries.contains (hash none q) <;>
      by_cases h2 : dl.find_wildcard_match hash q <;> simp [h1, h2]
  rw [hform]
  simp only [Bool.or_eq_true, List.any_eq_true]
  rw [← find_wildcard_match_iff hash dl q]
  constructor
  · rintro ((h | h) | h)
    · exact Or.inl (by simpa using h)
    · exact Or.inr (Or.inl h)
    · exact Or.inr (Or.inr h)
  · rintro (h | h | h)
    · exact Or.inl (Or.inl (by simpa using h))
    · exact Or.inl (Or.inr h)
    · exact Or.inr h

end ODNSModel
